import Mathlib

/-!
# Device / user assignment registry of `server.js`

A shallow embedding of the request handlers of `src/server.js` that read and
rewrite `photos.json`, and the properties of the assignment registry they
implement.

Modelling conventions.

* The state is the content of `photos.json` (`File`): unreadable (missing or
  not JSON, so that `readFileSync` / `JSON.parse` throws), the JSON value
  `null`, or a document object whose `devices` and `users` collections may be
  absent (`Option`), as may a user's `devices` (the handlers guard these with
  `if (!data.users)` and `user.devices || []`).
* A request parameter is whatever the body parsers mounted by the server
  (`express.urlencoded({extended: true})`, `express.json()`, the multipart
  parser) deliver: a string, but also an array (`deviceIdentifier[]=D1`), a
  number, a boolean, `null`, or nothing at all.  Such a parameter is a `Value`,
  and so is every stored field that a handler copies from a parameter.  The
  fields `usage` and `filename` only ever receive strings.  Objects and nested
  arrays, which the parsers can build as well, are not modelled; under `===`
  they behave as arrays do.
* The operator `===` between a stored value and a parameter is `strictEq`: an
  array is an object of its own and equals nothing; other values are equal
  when they are the same.  The conversion `String(x)` is `jsString`.
* A handler is a function from the file and the request parameters to the
  response and the file afterwards.  A `try` block is a value of `Except`:
  `throw` is `Except.error`, and `catchInternal` is the handler's `catch`
  block.  `fs.writeFileSync` is taken to succeed.
-/

namespace Registry

/-! ## Values -/

/-- A JavaScript value as a body parser or `JSON.parse` delivers it for a
field. -/
inductive Value where
  /-- The field is absent. -/
  | undefined
  /-- The JSON value `null`. -/
  | null
  /-- A boolean. -/
  | bool (b : Bool)
  /-- A number, given by the text `String` prints for it; two JSON numbers are
  `===` exactly when these texts are the same. -/
  | num (text : String)
  /-- A string. -/
  | str (s : String)
  /-- An array of strings, as the form parsers build for `field[]=s`. -/
  | arr (items : List String)
  deriving DecidableEq

/-- Comparison `a === b` of a value of the parsed document with a request
parameter: an array is never equal to anything (the two operands are distinct
objects); other values are equal when they are the same. -/
def strictEq : Value → Value → Bool
  | .arr _, _ => false
  | _, .arr _ => false
  | a, b => decide (a = b)

/-- Conversion `String(x)`; an array prints its items joined by commas. -/
def jsString : Value → String
  | .undefined => "undefined"
  | .null => "null"
  | .bool true => "true"
  | .bool false => "false"
  | .num text => text
  | .str s => s
  | .arr items => String.intercalate "," items

/-! ## Data model -/

/-- Entry `{identifier, usage}` of a user's `devices` array. -/
structure UserDevice where
  identifier : Value
  usage : String
  deriving DecidableEq

/-- Element of the `devices` array of `photos.json`. -/
structure Device where
  identifier : Value
  name : Value
  description : Value
  serialNumber : Value
  manufacturer : Value
  filename : String
  usage : String
  user : Value
  deriving DecidableEq

/-- Element of the `users` array of `photos.json`; `devices` may be absent. -/
structure User where
  name : Value
  surname : Value
  login : Value
  password : Value
  devices : Option (List UserDevice)
  deriving DecidableEq

/-- Parsed object of `photos.json`; either collection may be absent. -/
structure Data where
  devices : Option (List Device)
  users : Option (List User)
  deriving DecidableEq

/-- Content of `photos.json`. -/
inductive File where
  /-- The file is missing or is not JSON: reading or parsing it throws. -/
  | unreadable
  /-- The file holds the JSON value `null`. -/
  | null
  /-- The file holds a JSON object. -/
  | doc (data : Data)
  deriving DecidableEq

/-- Payload passed to `res.json`, or the trace of an uncaught exception. -/
inductive Body where
  /-- Payload `{message: text}`. -/
  | message (text : String)
  /-- Payload `{error: text}`. -/
  | error (text : String)
  /-- Payload `{username, devices}` of `/user_devices`. -/
  | userDevices (username : Value) (devices : List UserDevice)
  /-- An exception left the handler: the framework answers by itself. -/
  | unhandled
  deriving DecidableEq

/-- HTTP response: status code (200 when `res.status` is not called) and payload. -/
structure Response where
  status : Nat
  body : Body
  deriving DecidableEq

/-- Object `photoInfo` built by `/upload` from the form fields and the file name. -/
structure PhotoInfo where
  identifier : Value
  name : Value
  description : Value
  serialNumber : Value
  manufacturer : Value
  filename : String
  deriving DecidableEq

/-! ## JavaScript primitives used by the handlers -/

/-- Method `Array.prototype.find`: the first element satisfying `p`. -/
def find {α : Type} (p : α → Bool) : List α → Option α
  | [] => none
  | x :: xs => if p x then some x else find p xs

/-- Method `Array.prototype.findIndex`; `none` stands for `-1`. -/
def findIndex {α : Type} (p : α → Bool) : List α → Option Nat
  | [] => none
  | x :: xs => if p x then some 0 else (findIndex p xs).map (· + 1)

/-- Method `Array.prototype.indexOf` on strings; `none` stands for `-1`. -/
def indexOf (xs : List String) (a : String) : Option Nat :=
  findIndex (fun x => x == a) xs

/-- Method `Array.prototype.some`. -/
def some_ {α : Type} (p : α → Bool) : List α → Bool
  | [] => false
  | x :: xs => p x || some_ p xs

/-- Call `xs.splice(index, 1)`: remove the element at `index`. -/
def splice1 {α : Type} : Nat → List α → List α
  | _, [] => []
  | 0, _ :: xs => xs
  | n + 1, x :: xs => x :: splice1 n xs

/-- Assignment to fields of the object returned by `find`: the array with its
first element satisfying `p` replaced by `f` of it. -/
def updateFound {α : Type} (p : α → Bool) (f : α → α) : List α → List α
  | [] => []
  | x :: xs => if p x then f x :: xs else x :: updateFound p f xs

/-- Assignment to fields of `xs[index]`. -/
def updateAt {α : Type} (f : α → α) : Nat → List α → List α
  | _, [] => []
  | 0, x :: xs => f x :: xs
  | n + 1, x :: xs => x :: updateAt f n xs

/-! ## Reading and writing `photos.json` -/

/-- Result of a `try` block: the response sent and the document written, if any. -/
abbrev Try := Except String (Response × Option Data)

/-- Response of every `catch` block. -/
def internalError : Response := ⟨500, Body.error "Internal server error"⟩

/-- A handler's `try { ... } catch (error) { res.status(500)... }`: the file
afterwards is the document written, or the old file when nothing was written. -/
def catchInternal (file : File) : Try → Response × File
  | .ok (res, some data) => (res, File.doc data)
  | .ok (res, none) => (res, file)
  | .error _ => (internalError, file)

/-- Expression `JSON.parse(fs.readFileSync(filePath, 'utf-8')) || {devices: [], users: []}`. -/
def readData : File → Except String Data
  | .unreadable => .error "ENOENT or SyntaxError"
  | .null => .ok ⟨some [], some []⟩
  | .doc data => .ok data

/-! ## Handlers -/

/-- Function `savePhotoInfo`: a read or parse failure gives `photos = {}`; the
record is pushed only when `photos.devices` exists (`?.`); on `null` the
property access throws. -/
def savePhotoInfo (file : File) (photoInfo : PhotoInfo) : Except String File :=
  let photoWithDefaults : Device :=
    { identifier := photoInfo.identifier
      name := photoInfo.name
      description := photoInfo.description
      serialNumber := photoInfo.serialNumber
      manufacturer := photoInfo.manufacturer
      filename := photoInfo.filename
      usage := "no used"
      user := Value.str "available" }
  match file with
  | .unreadable => .ok (File.doc ⟨none, none⟩)
  | .null => .error "TypeError: Cannot read properties of null"
  | .doc photos =>
    .ok (File.doc { photos with devices := photos.devices.map (fun ds => ds ++ [photoWithDefaults]) })

/-- Handler of `POST /upload`; `originalname` is `req.file.originalname`, absent
when no file part was sent.  It has no `try`: an exception is unhandled. -/
def upload (file : File) (identifier name description serialNumber manufacturer : Value)
    (originalname : Option String) : Response × File :=
  match originalname with
  | none => (⟨500, Body.unhandled⟩, file)
  | some filename =>
    match savePhotoInfo file ⟨identifier, name, description, serialNumber, manufacturer, filename⟩ with
    | .ok file1 => (⟨200, Body.message "The photo uploaded successfully"⟩, file1)
    | .error _ => (⟨500, Body.unhandled⟩, file)

/-- The `try` block of `POST /add_user`. -/
def add_user_try (file : File) (name surname login password : Value) : Try := do
  let data ← readData file
  let users := data.users.getD []
  if some_ (fun user => strictEq user.login login) users then
    return (⟨400, Body.error "User with the login already exists"⟩, none)
  let newUser : User := ⟨name, surname, login, password, some []⟩
  return (⟨200, Body.message "User added successfully"⟩,
    some { data with users := some (users ++ [newUser]) })

/-- Handler of `POST /add_user`. -/
def add_user (file : File) (name surname login password : Value) : Response × File :=
  catchInternal file (add_user_try file name surname login password)

/-- The `try` block of `POST /add_device_to_user`.  In the branch without a
user the code calls `req.status`, which a request object does not have: the
call throws a `TypeError`. -/
def add_device_to_user_try (file : File) (deviceIdentifier username : Value) : Try := do
  let data ← readData file
  let users := data.users.getD []
  let devices := data.devices.getD []
  match find (fun u => strictEq u.name username) users with
  | some _ =>
    match find (fun d => strictEq d.identifier deviceIdentifier) devices with
    | some device =>
      if device.usage != "is use" then
        let devices1 := updateFound (fun d => strictEq d.identifier deviceIdentifier)
          (fun d => { d with usage := "is use", user := username }) devices
        let users1 := updateFound (fun u => strictEq u.name username)
          (fun u => { u with devices := some (u.devices.getD [] ++ [⟨device.identifier, "is use"⟩]) })
          users
        return (⟨200, Body.message "Device added to the user successfully"⟩,
          some ⟨some devices1, some users1⟩)
      else
        return (⟨400, Body.error "Device is already in use"⟩, none)
    | none => return (⟨404, Body.error "Device not found"⟩, none)
  | none => throw "TypeError: req.status is not a function"

/-- Handler of `POST /add_device_to_user` (Assign). -/
def add_device_to_user (file : File) (deviceIdentifier username : Value) : Response × File :=
  catchInternal file (add_device_to_user_try file deviceIdentifier username)

/-- The `try` block of `POST /remove_device_from_user`.  The user's entry is
looked up through `String(...)` on both sides, the catalog device through
`===`.  `user.devices.map` throws when the user has no `devices`. -/
def remove_device_from_user_try (file : File) (deviceIdentifier username : Value) : Try := do
  let data ← readData file
  let users := data.users.getD []
  let devices := data.devices.getD []
  match find (fun u => strictEq u.name username) users with
  | some user =>
    match user.devices with
    | none => throw "TypeError: Cannot read properties of undefined"
    | some held =>
      let userDevices := held.map (fun device => jsString device.identifier)
      match indexOf userDevices (jsString deviceIdentifier) with
      | some deviceIndex =>
        let devices1 := updateFound (fun d => strictEq d.identifier deviceIdentifier)
          (fun d => { d with usage := "no used", user := Value.str "available" }) devices
        let users1 := updateFound (fun u => strictEq u.name username)
          (fun u => { u with devices := some (splice1 deviceIndex held) }) users
        return (⟨200, Body.message "The device removed from user successfully"⟩,
          some ⟨some devices1, some users1⟩)
      | none => return (⟨404, Body.error "Device not found in the user's devices"⟩, none)
  | none => return (⟨404, Body.error "User not found"⟩, none)

/-- Handler of `POST /remove_device_from_user` (Release). -/
def remove_device_from_user (file : File) (deviceIdentifier username : Value) :
    Response × File :=
  catchInternal file (remove_device_from_user_try file deviceIdentifier username)

/-- The `try` block of `GET /user_devices`; it writes nothing. -/
def user_devices_try (file : File) (username : Value) : Try := do
  let data ← readData file
  let users := data.users.getD []
  match find (fun u => strictEq u.name username) users with
  | some user => return (⟨200, Body.userDevices username (user.devices.getD [])⟩, none)
  | none => return (⟨404, Body.error "User not found"⟩, none)

/-- Handler of `GET /user_devices` (ListUserDevices). -/
def user_devices (file : File) (username : Value) : Response × File :=
  catchInternal file (user_devices_try file username)

/-- Expression `field !== undefined ? field : existing` of `/edit_product`. -/
def orExisting (field existing : Value) : Value :=
  if field ≠ Value.undefined then field else existing

/-- The `try` block of `PUT /edit_product`.  `devices.findIndex` throws when the
document has no `devices`. -/
def edit_product_try (file : File)
    (identifier name description serialNumber manufacturer : Value) : Try := do
  let data ← readData file
  match data.devices with
  | none => throw "TypeError: Cannot read properties of undefined"
  | some devices =>
    match findIndex (fun device => strictEq device.identifier identifier) devices with
    | some index =>
      let devices1 := updateAt (fun existingDevice =>
        { existingDevice with
          name := orExisting name existingDevice.name
          description := orExisting description existingDevice.description
          serialNumber := orExisting serialNumber existingDevice.serialNumber
          manufacturer := orExisting manufacturer existingDevice.manufacturer }) index devices
      return (⟨200, Body.message "The product edited successfully"⟩,
        some { data with devices := some devices1 })
    | none => return (⟨404, Body.error "Product not found"⟩, none)

/-- Handler of `PUT /edit_product`. -/
def edit_product (file : File)
    (identifier name description serialNumber manufacturer : Value) : Response × File :=
  catchInternal file (edit_product_try file identifier name description serialNumber manufacturer)

/-- The `try` block of `DELETE /delete_product`.  Here the parsed value is
used as it is: `photos.devices` throws on `null` and `findIndex` throws when
`devices` is absent. -/
def delete_product_try (file : File) (identifier : Value) : Try :=
  match file with
  | .unreadable => throw "ENOENT or SyntaxError"
  | .null => throw "TypeError: Cannot read properties of null"
  | .doc photos =>
    match photos.devices with
    | none => throw "TypeError: Cannot read properties of undefined"
    | some devices =>
      match findIndex (fun photo => jsString photo.identifier == jsString identifier) devices with
      | some index =>
        return (⟨200, Body.message "The product deleted successfully"⟩,
          some { photos with devices := some (splice1 index devices) })
      | none => return (⟨404, Body.error "Product not found"⟩, none)

/-- Handler of `DELETE /delete_product`. -/
def delete_product (file : File) (identifier : Value) : Response × File :=
  catchInternal file (delete_product_try file identifier)

/-- The sequence `ListUserDevices(username)` answers with, when it succeeds. -/
def listUserDevices (file : File) (username : Value) : Option (List UserDevice) :=
  match (user_devices file username).1.body with
  | Body.userDevices _ devices => some devices
  | _ => none

/-! ## Example data: the user alice and the device D1 of the specification -/

/-- User alice, holding nothing. -/
def alice : User := ⟨.str "alice", .str "Liddell", .str "alice01", .str "secret", some []⟩

/-- User alice, holding D1. -/
def aliceD1 : User :=
  ⟨.str "alice", .str "Liddell", .str "alice01", .str "secret", some [⟨.str "D1", "is use"⟩]⟩

/-- Device D1, not assigned. -/
def deviceD1 : Device :=
  ⟨.str "D1", .str "Camera", .str "A camera", .str "SN-1", .str "Acme", "d1.jpg", "no used",
    .str "available"⟩

/-- Device D1, assigned to alice. -/
def deviceD1Alice : Device :=
  ⟨.str "D1", .str "Camera", .str "A camera", .str "SN-1", .str "Acme", "d1.jpg", "is use",
    .str "alice"⟩

/-- Registry with alice and the free device D1. -/
def fileFree : File := File.doc ⟨some [deviceD1], some [alice]⟩

/-- Registry with alice holding the device D1. -/
def fileHeld : File := File.doc ⟨some [deviceD1Alice], some [aliceD1]⟩

/-! ## Requests and runs -/

/-- The empty document `{devices: [], users: []}`. -/
def emptyFile : File := File.doc ⟨some [], some []⟩

/-- A request to one of the routes that touch `photos.json`. -/
inductive Request where
  | add_user (name surname login password : Value)
  | upload (identifier name description serialNumber manufacturer : Value)
      (originalname : Option String)
  | edit_product (identifier name description serialNumber manufacturer : Value)
  | add_device_to_user (deviceIdentifier username : Value)
  | remove_device_from_user (deviceIdentifier username : Value)
  | user_devices (username : Value)
  | delete_product (identifier : Value)
  deriving DecidableEq

/-- Dispatch of a request to its handler. -/
def handle (file : File) : Request → Response × File
  | .add_user name surname login password => add_user file name surname login password
  | .upload identifier name description serialNumber manufacturer originalname =>
    upload file identifier name description serialNumber manufacturer originalname
  | .edit_product identifier name description serialNumber manufacturer =>
    edit_product file identifier name description serialNumber manufacturer
  | .add_device_to_user deviceIdentifier username =>
    add_device_to_user file deviceIdentifier username
  | .remove_device_from_user deviceIdentifier username =>
    remove_device_from_user file deviceIdentifier username
  | .user_devices username => user_devices file username
  | .delete_product identifier => delete_product file identifier

/-- The file after a sequence of requests, served one after the other. -/
def run (file : File) : List Request → File
  | [] => file
  | request :: rest => run (handle file request).2 rest

/-- The request that creates alice. -/
def addAlice : Request :=
  .add_user (.str "alice") (.str "Liddell") (.str "alice01") (.str "secret")

/-- The request that uploads D1 with the file `d1.jpg`. -/
def uploadD1 : Request :=
  .upload (.str "D1") (.str "Camera") (.str "A camera") (.str "SN-1") (.str "Acme")
    (some "d1.jpg")

/-- A run from the empty document after which alice lists D1 twice: D1 is
uploaded, assigned to alice, deleted from the catalog, uploaded again and
assigned to alice again. -/
def duplicateRun : List Request :=
  [ addAlice, uploadD1, .add_device_to_user (.str "D1") (.str "alice"),
    .delete_product (.str "D1"), uploadD1, .add_device_to_user (.str "D1") (.str "alice") ]

/-- A run from the empty document made of one user creation, one upload, one
Assign and one Release, the Release carrying `deviceIdentifier[]=D1`, which the
form parser delivers as the array `['D1']`. -/
def arrayReleaseRun : List Request :=
  [ addAlice, uploadD1, .add_device_to_user (.str "D1") (.str "alice"),
    .remove_device_from_user (.arr ["D1"]) (.str "alice") ]

/-- A run from the empty document in which the upload and the Assign carry no
identifier and the Release carries the string "undefined". -/
def undefinedReleaseRun : List Request :=
  [ addAlice,
    .upload .undefined (.str "Camera") (.str "A camera") (.str "SN-1") (.str "Acme")
      (some "d1.jpg"),
    .add_device_to_user .undefined (.str "alice"),
    .remove_device_from_user (.str "undefined") (.str "alice") ]

/-- The request `POST /add_user` with the form body
`name=a&surname=b&login[]=dup&password=p`. -/
def addDupLogin : Request :=
  .add_user (.str "a") (.str "b") (.arr ["dup"]) (.str "p")

/-! ## Reachable registries and their consistency -/

/-- The devices collection of a file (empty when there is none). -/
def catalog : File → List Device
  | .doc data => data.devices.getD []
  | _ => []

/-- The users collection of a file (empty when there is none). -/
def usersOf : File → List User
  | .doc data => data.users.getD []
  | _ => []

/-- The devices a user lists, `user.devices || []`. -/
def held (user : User) : List UserDevice := user.devices.getD []

/-- Files reachable from the empty document by user creations, uploads whose
identifier is a string not yet in the catalog, product edits, Assign calls, and
Release calls whose `deviceIdentifier` is a string, whatever each call answers.
All other parameters are arbitrary values. -/
inductive Reachable : File → Prop where
  | empty : Reachable emptyFile
  | user_added {file : File} (name surname login password : Value) :
      Reachable file → Reachable (add_user file name surname login password).2
  | uploaded {file : File} (identifier : String)
      (name description serialNumber manufacturer : Value) (originalname : Option String) :
      Reachable file → (∀ d ∈ catalog file, d.identifier ≠ Value.str identifier) →
      Reachable (upload file (Value.str identifier) name description serialNumber manufacturer
        originalname).2
  | edited {file : File} (identifier name description serialNumber manufacturer : Value) :
      Reachable file →
      Reachable (edit_product file identifier name description serialNumber manufacturer).2
  | assigned {file : File} (deviceIdentifier username : Value) :
      Reachable file → Reachable (add_device_to_user file deviceIdentifier username).2
  | released {file : File} (deviceIdentifier : String) (username : Value) :
      Reachable file →
      Reachable (remove_device_from_user file (Value.str deviceIdentifier) username).2

/-- Registry consistency: for every device of the catalog, its usage is "is
use" exactly when some user lists its identifier; its user is the name of every
user listing it; and its user is "available" when nobody lists it. -/
def Consistent (file : File) : Prop :=
  ∀ d ∈ catalog file,
    (d.usage = "is use" ↔ ∃ u ∈ usersOf file, ∃ e ∈ held u, e.identifier = d.identifier)
    ∧ (∀ u ∈ usersOf file, (∃ e ∈ held u, e.identifier = d.identifier) → d.user = u.name)
    ∧ ((¬ ∃ u ∈ usersOf file, ∃ e ∈ held u, e.identifier = d.identifier) →
        d.user = Value.str "available")

/-- The identifiers listed by the users, in order. -/
def heldIds : List User → List Value
  | [] => []
  | u :: us => (held u).map (fun e => e.identifier) ++ heldIds us

/-- The invariant that the handlers preserve and that gives `Consistent`:
catalog identifiers are distinct strings; every listed entry has a catalog
device in use by the listing user; no identifier is listed twice; a device not
in use has user "available"; a device in use is listed. -/
structure Strong (devices : List Device) (users : List User) : Prop where
  nodupIds : (devices.map (fun d => d.identifier)).Nodup
  strIds : ∀ d ∈ devices, ∃ s, d.identifier = Value.str s
  entryDevice : ∀ u ∈ users, ∀ e ∈ held u,
    ∃ d ∈ devices, d.identifier = e.identifier ∧ d.usage = "is use" ∧ d.user = u.name
  nodupHeld : (heldIds users).Nodup
  freeUser : ∀ d ∈ devices, d.usage ≠ "is use" → d.user = Value.str "available"
  usedHeld : ∀ d ∈ devices, d.usage = "is use" → d.identifier ∈ heldIds users

/-! ## Logins -/

/-- The logins of the users of a file, in order. -/
def logins (file : File) : List Value :=
  (usersOf file).map (fun user => user.login)

/-- The request is not a user creation whose login is an array. -/
def loginNotArray : Request → Prop
  | .add_user _ _ login _ => ∀ items, login ≠ Value.arr items
  | _ => True

/-- The record `savePhotoInfo` builds from `photoInfo`: its six fields with
usage "no used" and user "available". -/
def photoWithDefaults (photoInfo : PhotoInfo) : Device :=
  { identifier := photoInfo.identifier
    name := photoInfo.name
    description := photoInfo.description
    serialNumber := photoInfo.serialNumber
    manufacturer := photoInfo.manufacturer
    filename := photoInfo.filename
    usage := "no used"
    user := Value.str "available" }

/-- Photo info of the device D1. -/
def photoD1 : PhotoInfo :=
  ⟨.str "D1", .str "Camera", .str "A camera", .str "SN-1", .str "Acme", "d1.jpg"⟩

end Registry

namespace Registry

/-! ## Lemmas on the array primitives -/

theorem find_append_first {α : Type} (p : α → Bool) (pre post : List α) (x : α)
    (hpre : ∀ y ∈ pre, p y = false) (hx : p x = true) :
    find p (pre ++ x :: post) = some x := by
  induction pre with
  | nil => simp [find, hx]
  | cons y ys ih =>
    have hy : p y = false := hpre y (List.mem_cons_self _ _)
    rw [List.cons_append]
    simp only [find, hy]
    exact ih (fun z hz => hpre z (List.mem_cons_of_mem _ hz))

theorem find_eq_none {α : Type} (p : α → Bool) (xs : List α)
    (h : ∀ y ∈ xs, p y = false) : find p xs = none := by
  induction xs with
  | nil => rfl
  | cons y ys ih =>
    have hy : p y = false := h y (List.mem_cons_self _ _)
    simp only [find, hy]
    exact ih (fun z hz => h z (List.mem_cons_of_mem _ hz))

theorem updateFound_append_first {α : Type} (p : α → Bool) (f : α → α) (pre post : List α)
    (x : α) (hpre : ∀ y ∈ pre, p y = false) (hx : p x = true) :
    updateFound p f (pre ++ x :: post) = pre ++ f x :: post := by
  induction pre with
  | nil => simp [updateFound, hx]
  | cons y ys ih =>
    have hy : p y = false := hpre y (List.mem_cons_self _ _)
    rw [List.cons_append]
    simp only [updateFound, hy]
    rw [ih (fun z hz => hpre z (List.mem_cons_of_mem _ hz))]
    simp

theorem updateFound_eq_self {α : Type} (p : α → Bool) (f : α → α) (xs : List α)
    (h : ∀ y ∈ xs, p y = false) : updateFound p f xs = xs := by
  induction xs with
  | nil => rfl
  | cons y ys ih =>
    have hy : p y = false := h y (List.mem_cons_self _ _)
    simp only [updateFound, hy]
    rw [ih (fun z hz => h z (List.mem_cons_of_mem _ hz))]
    simp

theorem findIndex_append_first {α : Type} (p : α → Bool) (pre post : List α) (x : α)
    (hpre : ∀ y ∈ pre, p y = false) (hx : p x = true) :
    findIndex p (pre ++ x :: post) = some pre.length := by
  induction pre with
  | nil => simp [findIndex, hx]
  | cons y ys ih =>
    have hy : p y = false := hpre y (List.mem_cons_self _ _)
    rw [List.cons_append]
    simp only [findIndex, hy]
    rw [ih (fun z hz => hpre z (List.mem_cons_of_mem _ hz))]
    simp

theorem findIndex_eq_none {α : Type} (p : α → Bool) (xs : List α)
    (h : ∀ y ∈ xs, p y = false) : findIndex p xs = none := by
  induction xs with
  | nil => rfl
  | cons y ys ih =>
    have hy : p y = false := h y (List.mem_cons_self _ _)
    simp only [findIndex, hy]
    rw [ih (fun z hz => h z (List.mem_cons_of_mem _ hz))]
    simp

theorem splice1_length_append {α : Type} (pre post : List α) (x : α) :
    splice1 pre.length (pre ++ x :: post) = pre ++ post := by
  induction pre with
  | nil => rfl
  | cons y ys ih =>
    rw [List.cons_append, List.length_cons]
    simp only [splice1, ih, List.cons_append]

theorem updateAt_length_append {α : Type} (f : α → α) (pre post : List α) (x : α) :
    updateAt f pre.length (pre ++ x :: post) = pre ++ f x :: post := by
  induction pre with
  | nil => rfl
  | cons y ys ih =>
    rw [List.cons_append, List.length_cons]
    simp only [updateAt, ih, List.cons_append]

/-- Every list with an element satisfying `p` splits at the first such element. -/
theorem exists_first_split {α : Type} (p : α → Bool) (xs : List α)
    (h : ∃ x ∈ xs, p x = true) :
    ∃ pre x post, xs = pre ++ x :: post ∧ (∀ y ∈ pre, p y = false) ∧ p x = true := by
  induction xs with
  | nil => simp at h
  | cons y ys ih =>
    cases hy : p y with
    | true => exact ⟨[], y, ys, rfl, by simp, hy⟩
    | false =>
      have h2 : ∃ x ∈ ys, p x = true := by
        obtain ⟨x, hx, hpx⟩ := h
        rcases List.mem_cons.mp hx with rfl | hx
        · simp [hy] at hpx
        · exact ⟨x, hx, hpx⟩
      obtain ⟨pre, x, post, hxs, hpre, hx⟩ := ih h2
      refine ⟨y :: pre, x, post, by simp [hxs], ?_, hx⟩
      intro z hz
      rcases List.mem_cons.mp hz with rfl | hz
      · exact hy
      · exact hpre z hz

/-! ## Lemmas on values -/

/-- Values that are `===` are the same value. -/
theorem strictEq_eq {a b : Value} (h : strictEq a b = true) : a = b := by
  cases a <;> cases b <;> simp_all [strictEq]

/-- Against a string, `===` is equality. -/
theorem strictEq_str (a : Value) (s : String) :
    strictEq a (Value.str s) = decide (a = Value.str s) := by
  cases a <;> simp [strictEq]

/-- Against a parameter that is not an array, `===` is equality. -/
theorem strictEq_of_not_arr (a b : Value) (hb : ∀ items, b ≠ Value.arr items) :
    strictEq a b = decide (a = b) := by
  cases b with
  | arr items => exact absurd rfl (hb items)
  | undefined => cases a <;> simp [strictEq]
  | null => cases a <;> simp [strictEq]
  | bool c => cases a <;> simp [strictEq]
  | num t => cases a <;> simp [strictEq]
  | str t => cases a <;> simp [strictEq]

/-- An array parameter is `===` to nothing. -/
theorem strictEq_arr (a : Value) (items : List String) :
    strictEq a (Value.arr items) = false := by
  cases a <;> rfl

/-! ## Assign: `POST /add_device_to_user` -/

/-- Assign, success branch: the document written. -/
theorem assign_ok (deviceIdentifier username : Value)
    (dpre dpost : List Device) (device : Device) (upre upost : List User) (user : User)
    (hdpre : ∀ d ∈ dpre, strictEq d.identifier deviceIdentifier = false)
    (hdev : strictEq device.identifier deviceIdentifier = true)
    (husage : device.usage ≠ "is use")
    (hupre : ∀ u ∈ upre, strictEq u.name username = false)
    (huser : strictEq user.name username = true) :
    add_device_to_user (File.doc ⟨some (dpre ++ device :: dpost), some (upre ++ user :: upost)⟩)
        deviceIdentifier username
      = (⟨200, Body.message "Device added to the user successfully"⟩,
         File.doc ⟨some (dpre ++ { device with usage := "is use", user := username } :: dpost),
           some (upre ++ { user with
             devices := some (user.devices.getD [] ++ [⟨deviceIdentifier, "is use"⟩]) } :: upost)⟩) := by
  have hd1 : ∀ d ∈ dpre, (fun d : Device => strictEq d.identifier deviceIdentifier) d = false := hdpre
  have hd2 : (fun d : Device => strictEq d.identifier deviceIdentifier) device = true := hdev
  have hu1 : ∀ u ∈ upre, (fun u : User => strictEq u.name username) u = false := hupre
  have hu2 : (fun u : User => strictEq u.name username) user = true := huser
  simp only [add_device_to_user, add_device_to_user_try, readData, Option.getD_some,
    bind, Except.bind, pure, Except.pure,
    find_append_first _ dpre dpost device hd1 hd2,
    find_append_first _ upre upost user hu1 hu2,
    updateFound_append_first _ _ dpre dpost device hd1 hd2,
    updateFound_append_first _ _ upre upost user hu1 hu2]
  simp [husage, catchInternal, strictEq_eq hdev]

/-- Assign, conflict branch. -/
theorem assign_conflict (deviceIdentifier username : Value)
    (dpre dpost : List Device) (device : Device) (upre upost : List User) (user : User)
    (hdpre : ∀ d ∈ dpre, strictEq d.identifier deviceIdentifier = false)
    (hdev : strictEq device.identifier deviceIdentifier = true)
    (husage : device.usage = "is use")
    (hupre : ∀ u ∈ upre, strictEq u.name username = false)
    (huser : strictEq user.name username = true) :
    add_device_to_user (File.doc ⟨some (dpre ++ device :: dpost), some (upre ++ user :: upost)⟩)
        deviceIdentifier username
      = (⟨400, Body.error "Device is already in use"⟩,
         File.doc ⟨some (dpre ++ device :: dpost), some (upre ++ user :: upost)⟩) := by
  have hd1 : ∀ d ∈ dpre, (fun d : Device => strictEq d.identifier deviceIdentifier) d = false := hdpre
  have hd2 : (fun d : Device => strictEq d.identifier deviceIdentifier) device = true := hdev
  have hu1 : ∀ u ∈ upre, (fun u : User => strictEq u.name username) u = false := hupre
  have hu2 : (fun u : User => strictEq u.name username) user = true := huser
  simp only [add_device_to_user, add_device_to_user_try, readData, Option.getD_some,
    bind, Except.bind, pure, Except.pure,
    find_append_first _ dpre dpost device hd1 hd2,
    find_append_first _ upre upost user hu1 hu2]
  simp [husage, catchInternal]

/-- ListUserDevices answers with the devices of the first user of that name. -/
theorem list_found (devices : Option (List Device)) (username : Value)
    (upre upost : List User) (user : User)
    (hupre : ∀ u ∈ upre, strictEq u.name username = false) (huser : strictEq user.name username = true) :
    listUserDevices (File.doc ⟨devices, some (upre ++ user :: upost)⟩) username
      = some (user.devices.getD []) := by
  have hu1 : ∀ u ∈ upre, (fun u : User => strictEq u.name username) u = false := hupre
  have hu2 : (fun u : User => strictEq u.name username) user = true := huser
  simp only [listUserDevices, user_devices, user_devices_try, readData, Option.getD_some,
    bind, Except.bind, pure, Except.pure,
    find_append_first _ upre upost _ hu1 hu2, catchInternal]

/-- Release, success branch: the document written, for any catalog. -/
theorem release_ok (deviceIdentifier username : Value) (devices : List Device)
    (upre upost : List User) (user : User) (hpre hpost : List UserDevice) (entry : UserDevice)
    (hupre : ∀ u ∈ upre, strictEq u.name username = false)
    (huser : strictEq user.name username = true)
    (hheld : user.devices = some (hpre ++ entry :: hpost))
    (hhpre : ∀ e ∈ hpre, jsString e.identifier ≠ jsString deviceIdentifier)
    (hentry : jsString entry.identifier = jsString deviceIdentifier) :
    remove_device_from_user (File.doc ⟨some devices, some (upre ++ user :: upost)⟩)
        deviceIdentifier username
      = (⟨200, Body.message "The device removed from user successfully"⟩,
         File.doc ⟨some (updateFound (fun d => strictEq d.identifier deviceIdentifier)
             (fun d => { d with usage := "no used", user := Value.str "available" }) devices),
           some (upre ++ { user with devices := some (hpre ++ hpost) } :: upost)⟩) := by
  have hu1 : ∀ u ∈ upre, (fun u : User => strictEq u.name username) u = false := hupre
  have hu2 : (fun u : User => strictEq u.name username) user = true := huser
  have hidx : indexOf (List.map (fun device : UserDevice => jsString device.identifier)
      (hpre ++ entry :: hpost)) (jsString deviceIdentifier) = some hpre.length := by
    have h := findIndex_append_first (fun x : String => x == jsString deviceIdentifier)
      (hpre.map (fun device : UserDevice => jsString device.identifier))
      (hpost.map (fun device : UserDevice => jsString device.identifier))
      (jsString entry.identifier)
      (by
        intro y hy
        obtain ⟨e, he, rfl⟩ := List.mem_map.mp hy
        simpa using hhpre e he)
      (by simpa using hentry)
    simpa [indexOf] using h
  simp only [remove_device_from_user, remove_device_from_user_try, readData, Option.getD_some,
    bind, Except.bind, pure, Except.pure,
    find_append_first _ upre upost user hu1 hu2, hheld, hidx,
    updateFound_append_first _ _ upre upost user hu1 hu2,
    splice1_length_append, catchInternal]

/-- C1. Assign success effect: when a user named `username` exists (`user` being
the first one) and the first device with identifier `deviceIdentifier` has a
usage other than "is use", the handler answers 200 and writes the registry in
which that device has usage "is use" and user `username`, that user's devices
are the old sequence (empty when absent) followed by the one entry
`{deviceIdentifier, "is use"}`, and everything else is as before; the user's
device list then reads as that sequence. -/
theorem assign_success (deviceIdentifier username : Value)
    (dpre dpost : List Device) (device : Device) (upre upost : List User) (user : User)
    (hdpre : ∀ d ∈ dpre, strictEq d.identifier deviceIdentifier = false)
    (hdev : strictEq device.identifier deviceIdentifier = true)
    (husage : device.usage ≠ "is use")
    (hupre : ∀ u ∈ upre, strictEq u.name username = false)
    (huser : strictEq user.name username = true) :
    add_device_to_user (File.doc ⟨some (dpre ++ device :: dpost), some (upre ++ user :: upost)⟩)
        deviceIdentifier username
      = (⟨200, Body.message "Device added to the user successfully"⟩,
         File.doc ⟨some (dpre ++ { device with usage := "is use", user := username } :: dpost),
           some (upre ++ { user with
             devices := some (user.devices.getD [] ++ [⟨deviceIdentifier, "is use"⟩]) } :: upost)⟩)
    ∧ listUserDevices
        (add_device_to_user
          (File.doc ⟨some (dpre ++ device :: dpost), some (upre ++ user :: upost)⟩)
          deviceIdentifier username).2 username
      = some (user.devices.getD [] ++ [⟨deviceIdentifier, "is use"⟩]) := by
  have key := assign_ok deviceIdentifier username dpre dpost device upre upost user
    hdpre hdev husage hupre huser
  refine ⟨key, ?_⟩
  rw [key]
  exact list_found _ username upre upost _ hupre huser

/-- Witness of C1 on the specification's example: assigning the free device D1 to
alice answers 200, marks D1 as used by alice and makes her list `[D1]`. -/
theorem assign_success_witness :
    add_device_to_user (File.doc ⟨some [deviceD1], some [alice]⟩) (.str "D1") (.str "alice")
      = (⟨200, Body.message "Device added to the user successfully"⟩,
         File.doc ⟨some [deviceD1Alice], some [aliceD1]⟩)
    ∧ listUserDevices
        (add_device_to_user (File.doc ⟨some [deviceD1], some [alice]⟩) (.str "D1") (.str "alice")).2
        (.str "alice")
      = some [⟨.str "D1", "is use"⟩] :=
  assign_success (.str "D1") (.str "alice") [] [] deviceD1 [] [] alice
    (by simp) rfl (by decide) (by simp) rfl

/-- C2. Assign on an already-assigned device: when a user named `username` exists
and the first device with identifier `deviceIdentifier` has usage "is use", the
handler answers 400 "Device is already in use" and the registry is unchanged,
whoever `username` is (the current holder included). -/
theorem assign_already_assigned (deviceIdentifier username : Value)
    (dpre dpost : List Device) (device : Device) (upre upost : List User) (user : User)
    (hdpre : ∀ d ∈ dpre, strictEq d.identifier deviceIdentifier = false)
    (hdev : strictEq device.identifier deviceIdentifier = true)
    (husage : device.usage = "is use")
    (hupre : ∀ u ∈ upre, strictEq u.name username = false)
    (huser : strictEq user.name username = true) :
    add_device_to_user (File.doc ⟨some (dpre ++ device :: dpost), some (upre ++ user :: upost)⟩)
        deviceIdentifier username
      = (⟨400, Body.error "Device is already in use"⟩,
         File.doc ⟨some (dpre ++ device :: dpost), some (upre ++ user :: upost)⟩) :=
  assign_conflict deviceIdentifier username dpre dpost device upre upost user
    hdpre hdev husage hupre huser

/-- Witness of C2: D1 is held by alice; assigning it to alice again is refused
and nothing changes. -/
theorem assign_already_assigned_witness :
    add_device_to_user (File.doc ⟨some [deviceD1Alice], some [aliceD1]⟩) (.str "D1") (.str "alice")
      = (⟨400, Body.error "Device is already in use"⟩,
         File.doc ⟨some [deviceD1Alice], some [aliceD1]⟩) :=
  assign_already_assigned (.str "D1") (.str "alice") [] [] deviceD1Alice [] [] aliceD1
    (by simp) rfl rfl (by simp) rfl

/-- C3 (the code at the failing input). No user is named bob: the branch calls
`req.status`, the call throws, and the `catch` block answers 500 "Internal
server error" instead of 404 "User not found". -/
theorem assign_unknown_user_internal_error :
    add_device_to_user fileFree (.str "D1") (.str "bob")
      = (⟨500, Body.error "Internal server error"⟩, fileFree)
    ∧ (add_device_to_user fileFree (.str "D1") (.str "bob")).1 ≠ ⟨404, Body.error "User not found"⟩ := by
  decide

/-- Assign without a user of that name: always the `catch` block. -/
theorem assign_no_user (data : Data) (deviceIdentifier username : Value)
    (h : ∀ u ∈ data.users.getD [], strictEq u.name username = false) :
    add_device_to_user (File.doc data) deviceIdentifier username
      = (internalError, File.doc data) := by
  have h1 : ∀ u ∈ data.users.getD [], (fun u : User => strictEq u.name username) u = false := h
  simp only [add_device_to_user, add_device_to_user_try, readData,
    bind, Except.bind, find_eq_none _ _ h1, throw, throwThe, MonadExceptOf.throw, catchInternal]

/-- C4. Assign is all-or-nothing: whenever the answer is not the success answer
(status 200) the file is unchanged; and when a user named `username` exists but
no device has identifier `deviceIdentifier`, the answer is 404 "Device not
found" and the file is unchanged. -/
theorem assign_all_or_nothing (file : File) (deviceIdentifier username : Value) :
    ((add_device_to_user file deviceIdentifier username).1.status ≠ 200 →
      (add_device_to_user file deviceIdentifier username).2 = file)
    ∧ (∀ data : Data, file = File.doc data →
        (∃ u ∈ data.users.getD [], strictEq u.name username = true) →
        (∀ d ∈ data.devices.getD [], strictEq d.identifier deviceIdentifier = false) →
        add_device_to_user file deviceIdentifier username
          = (⟨404, Body.error "Device not found"⟩, file)) := by
  constructor
  · intro hstatus
    revert hstatus
    unfold add_device_to_user add_device_to_user_try
    cases file with
    | unreadable => simp [readData, bind, Except.bind, catchInternal]
    | null => simp [readData, bind, Except.bind, catchInternal, find, throw, throwThe, MonadExceptOf.throw]
    | doc data =>
      simp only [readData, bind, Except.bind, pure, Except.pure]
      split
      · split
        · split
          · simp [catchInternal]
          · simp [catchInternal]
        · simp [catchInternal]
      · simp [catchInternal, throw, throwThe, MonadExceptOf.throw]
  · intro data hfile hu hd
    subst hfile
    have hd1 : ∀ d ∈ data.devices.getD [],
        (fun d : Device => strictEq d.identifier deviceIdentifier) d = false := hd
    obtain ⟨upre, user, upost, hsplit, hu1, hu2⟩ :=
      exists_first_split (fun u : User => strictEq u.name username) (data.users.getD [])
        hu
    simp only [add_device_to_user, add_device_to_user_try, readData,
      bind, Except.bind, pure, Except.pure, hsplit,
      find_append_first _ upre upost user hu1 hu2, find_eq_none _ _ hd1, catchInternal]

/-- Witness of C4: alice exists and no device is called D9, so the answer is 404
"Device not found" and the file is unchanged. -/
theorem assign_all_or_nothing_witness :
    (add_device_to_user fileFree (.str "D9") (.str "alice")).2 = fileFree
    ∧ add_device_to_user fileFree (.str "D9") (.str "alice")
        = (⟨404, Body.error "Device not found"⟩, fileFree) :=
  ⟨(assign_all_or_nothing fileFree (.str "D9") (.str "alice")).1 (by decide),
   (assign_all_or_nothing fileFree (.str "D9") (.str "alice")).2 _ rfl
     ⟨alice, by simp [fileFree], rfl⟩ (by decide)⟩

/-! ## Release: `POST /remove_device_from_user` -/

/-- C5. Release success effect: when the first user named `username` has a
devices sequence with an entry whose identifier equals `deviceIdentifier` as a
string (`entry` being the first one), the handler answers 200 and writes the
registry in which that user's sequence has lost exactly that entry; if the
catalog has a device with that identifier, the first one has usage "no used"
and user "available" and is otherwise as before; if it has none, the catalog is
as before. Nothing else changes. -/
theorem release_success (deviceIdentifier username : Value)
    (upre upost : List User) (user : User) (hpre hpost : List UserDevice) (entry : UserDevice)
    (hupre : ∀ u ∈ upre, strictEq u.name username = false)
    (huser : strictEq user.name username = true)
    (hheld : user.devices = some (hpre ++ entry :: hpost))
    (hhpre : ∀ e ∈ hpre, jsString e.identifier ≠ jsString deviceIdentifier)
    (hentry : jsString entry.identifier = jsString deviceIdentifier) :
    (∀ (dpre dpost : List Device) (device : Device),
      (∀ d ∈ dpre, strictEq d.identifier deviceIdentifier = false) →
      strictEq device.identifier deviceIdentifier = true →
      remove_device_from_user
          (File.doc ⟨some (dpre ++ device :: dpost), some (upre ++ user :: upost)⟩)
          deviceIdentifier username
        = (⟨200, Body.message "The device removed from user successfully"⟩,
           File.doc ⟨some (dpre ++ { device with usage := "no used", user := Value.str "available" } :: dpost),
             some (upre ++ { user with devices := some (hpre ++ hpost) } :: upost)⟩))
    ∧ (∀ devices : List Device,
      (∀ d ∈ devices, strictEq d.identifier deviceIdentifier = false) →
      remove_device_from_user (File.doc ⟨some devices, some (upre ++ user :: upost)⟩)
          deviceIdentifier username
        = (⟨200, Body.message "The device removed from user successfully"⟩,
           File.doc ⟨some devices,
             some (upre ++ { user with devices := some (hpre ++ hpost) } :: upost)⟩)) := by
  constructor
  · intro dpre dpost device hdpre hdev
    rw [release_ok deviceIdentifier username _ upre upost user hpre hpost entry
      hupre huser hheld hhpre hentry]
    rw [updateFound_append_first _ _ dpre dpost device
      hdpre hdev]
  · intro devices hnone
    rw [release_ok deviceIdentifier username _ upre upost user hpre hpost entry
      hupre huser hheld hhpre hentry]
    rw [updateFound_eq_self _ _ devices hnone]

/-- Witness of C5: alice holds D1. With D1 in the catalog the release resets it
and empties her list; with an empty catalog (dangling entry) the entry is
removed all the same. -/
theorem release_success_witness :
    remove_device_from_user (File.doc ⟨some [deviceD1Alice], some [aliceD1]⟩) (.str "D1") (.str "alice")
      = (⟨200, Body.message "The device removed from user successfully"⟩,
         File.doc ⟨some [deviceD1], some [alice]⟩)
    ∧ remove_device_from_user (File.doc ⟨some [], some [aliceD1]⟩) (.str "D1") (.str "alice")
      = (⟨200, Body.message "The device removed from user successfully"⟩,
         File.doc ⟨some [], some [alice]⟩) :=
  ⟨(release_success (.str "D1") (.str "alice") [] [] aliceD1 [] [] ⟨.str "D1", "is use"⟩
      (by simp) rfl rfl (by simp) rfl).1 [] [] deviceD1Alice (by simp) rfl,
   (release_success (.str "D1") (.str "alice") [] [] aliceD1 [] [] ⟨.str "D1", "is use"⟩
      (by simp) rfl rfl (by simp) rfl).2 [] (by simp)⟩

/-- C6 (counterexample). After the run `duplicateRun` from the empty document,
alice lists D1 twice and D1 is in the catalog; the release of D1 from alice
succeeds and resets the catalog device, yet her list still has an entry for
D1. -/
theorem release_keeps_duplicate_entry :
    run emptyFile duplicateRun
      = File.doc ⟨some [deviceD1Alice],
          some [⟨.str "alice", .str "Liddell", .str "alice01", .str "secret",
            some [⟨.str "D1", "is use"⟩, ⟨.str "D1", "is use"⟩]⟩]⟩
    ∧ (remove_device_from_user (run emptyFile duplicateRun) (.str "D1") (.str "alice")).1
      = ⟨200, Body.message "The device removed from user successfully"⟩
    ∧ (remove_device_from_user (run emptyFile duplicateRun) (.str "D1") (.str "alice")).2
      = File.doc ⟨some [deviceD1], some [aliceD1]⟩
    ∧ listUserDevices (remove_device_from_user (run emptyFile duplicateRun) (.str "D1") (.str "alice")).2
        (.str "alice") = some [⟨.str "D1", "is use"⟩]
    ∧ ¬ (∀ held, listUserDevices
          (remove_device_from_user (run emptyFile duplicateRun) (.str "D1") (.str "alice")).2 (.str "alice")
            = some held → ∀ e ∈ held, e.identifier ≠ Value.str "D1") := by
  refine ⟨by decide, by decide, by decide, by decide, ?_⟩
  intro h
  exact h [⟨.str "D1", "is use"⟩] (by decide) ⟨.str "D1", "is use"⟩ (by simp) rfl

/-- C6 (amended). When the first user named `username` has an entry for
`deviceIdentifier` (`entry` being the first one) and the catalog has a device
with that identifier (`device` being the first one), the release answers 200,
that device has usage "no used" and user "available" afterwards, the user's
list is the old list without that one entry, and it has no entry for the
identifier left provided no later entry of the old list has it. -/
theorem release_removes_first_entry (deviceIdentifier username : Value)
    (dpre dpost : List Device) (device : Device)
    (upre upost : List User) (user : User) (hpre hpost : List UserDevice) (entry : UserDevice)
    (hdpre : ∀ d ∈ dpre, strictEq d.identifier deviceIdentifier = false)
    (hdev : strictEq device.identifier deviceIdentifier = true)
    (hupre : ∀ u ∈ upre, strictEq u.name username = false)
    (huser : strictEq user.name username = true)
    (hheld : user.devices = some (hpre ++ entry :: hpost))
    (hhpre : ∀ e ∈ hpre, jsString e.identifier ≠ jsString deviceIdentifier)
    (hentry : jsString entry.identifier = jsString deviceIdentifier) :
    (remove_device_from_user
        (File.doc ⟨some (dpre ++ device :: dpost), some (upre ++ user :: upost)⟩)
        deviceIdentifier username).1
      = ⟨200, Body.message "The device removed from user successfully"⟩
    ∧ (∃ users1, (remove_device_from_user
        (File.doc ⟨some (dpre ++ device :: dpost), some (upre ++ user :: upost)⟩)
        deviceIdentifier username).2
      = File.doc ⟨some (dpre ++ { device with usage := "no used", user := Value.str "available" } :: dpost),
          some users1⟩)
    ∧ listUserDevices (remove_device_from_user
        (File.doc ⟨some (dpre ++ device :: dpost), some (upre ++ user :: upost)⟩)
        deviceIdentifier username).2 username = some (hpre ++ hpost)
    ∧ ((∀ e ∈ hpost, e.identifier ≠ deviceIdentifier) →
        ∀ held, listUserDevices (remove_device_from_user
          (File.doc ⟨some (dpre ++ device :: dpost), some (upre ++ user :: upost)⟩)
          deviceIdentifier username).2 username = some held →
        ∀ e ∈ held, e.identifier ≠ deviceIdentifier) := by
  have hlist := list_found (some (dpre ++
      { device with usage := "no used", user := Value.str "available" } :: dpost)) username upre upost
    { user with devices := some (hpre ++ hpost) } hupre huser
  rw [release_ok deviceIdentifier username _ upre upost user hpre hpost entry
    hupre huser hheld hhpre hentry]
  rw [updateFound_append_first _ _ dpre dpost device
    hdpre hdev]
  refine ⟨rfl, ⟨_, rfl⟩, hlist, ?_⟩
  intro hpost1 held hheld1 e he
  have hl : some (hpre ++ hpost) = some held := hlist.symm.trans hheld1
  have hl2 : hpre ++ hpost = held := Option.some.inj hl
  rw [← hl2] at he
  rcases List.mem_append.mp he with h | h
  · exact fun heq => hhpre e h (by rw [heq])
  · exact hpost1 e h

/-- Witness of C6 (amended): alice holds D1 once; after the release D1 is free
and her list is empty. -/
theorem release_removes_first_entry_witness :
    (remove_device_from_user (File.doc ⟨some [deviceD1Alice], some [aliceD1]⟩) (.str "D1") (.str "alice")).1
      = ⟨200, Body.message "The device removed from user successfully"⟩
    ∧ (∃ users1,
        (remove_device_from_user (File.doc ⟨some [deviceD1Alice], some [aliceD1]⟩) (.str "D1") (.str "alice")).2
          = File.doc ⟨some [deviceD1], some users1⟩)
    ∧ listUserDevices
        (remove_device_from_user (File.doc ⟨some [deviceD1Alice], some [aliceD1]⟩) (.str "D1") (.str "alice")).2
        (.str "alice") = some []
    ∧ ((∀ e ∈ ([] : List UserDevice), e.identifier ≠ Value.str "D1") →
        ∀ held, listUserDevices
          (remove_device_from_user (File.doc ⟨some [deviceD1Alice], some [aliceD1]⟩)
            (.str "D1") (.str "alice")).2 (.str "alice") = some held →
        ∀ e ∈ held, e.identifier ≠ Value.str "D1") :=
  release_removes_first_entry (.str "D1") (.str "alice") [] [] deviceD1Alice [] [] aliceD1 [] []
    ⟨.str "D1", "is use"⟩ (by simp) rfl (by simp) rfl rfl (by simp) rfl

/-- Release without a user of that name. -/
theorem release_no_user (data : Data) (deviceIdentifier username : Value)
    (h : ∀ u ∈ data.users.getD [], strictEq u.name username = false) :
    remove_device_from_user (File.doc data) deviceIdentifier username
      = (⟨404, Body.error "User not found"⟩, File.doc data) := by
  have h1 : ∀ u ∈ data.users.getD [], (fun u : User => strictEq u.name username) u = false :=
    h
  simp only [remove_device_from_user, remove_device_from_user_try, readData,
    bind, Except.bind, pure, Except.pure, find_eq_none _ _ h1, catchInternal]

/-- Release when the user lists no entry for the identifier. -/
theorem release_no_entry (deviceIdentifier username : Value) (devices : Option (List Device))
    (upre upost : List User) (user : User) (held : List UserDevice)
    (hupre : ∀ u ∈ upre, strictEq u.name username = false) (huser : strictEq user.name username = true)
    (hheld : user.devices = some held)
    (hnone : ∀ e ∈ held, jsString e.identifier ≠ jsString deviceIdentifier) :
    remove_device_from_user (File.doc ⟨devices, some (upre ++ user :: upost)⟩)
        deviceIdentifier username
      = (⟨404, Body.error "Device not found in the user's devices"⟩,
         File.doc ⟨devices, some (upre ++ user :: upost)⟩) := by
  have hu1 : ∀ u ∈ upre, (fun u : User => strictEq u.name username) u = false := hupre
  have hu2 : (fun u : User => strictEq u.name username) user = true := huser
  have hidx : indexOf (List.map (fun device : UserDevice => jsString device.identifier) held)
      (jsString deviceIdentifier) = none := by
    apply findIndex_eq_none
    intro y hy
    obtain ⟨e, he, rfl⟩ := List.mem_map.mp hy
    simpa using hnone e he
  simp only [remove_device_from_user, remove_device_from_user_try, readData, Option.getD_some,
    bind, Except.bind, pure, Except.pure,
    find_append_first _ upre upost user hu1 hu2, hheld, hidx, catchInternal]

/-- Release when the user record has no `devices`: `user.devices.map` throws. -/
theorem release_no_devices_field (deviceIdentifier username : Value)
    (devices : Option (List Device)) (upre upost : List User) (user : User)
    (hupre : ∀ u ∈ upre, strictEq u.name username = false) (huser : strictEq user.name username = true)
    (hheld : user.devices = none) :
    remove_device_from_user (File.doc ⟨devices, some (upre ++ user :: upost)⟩)
        deviceIdentifier username
      = (internalError, File.doc ⟨devices, some (upre ++ user :: upost)⟩) := by
  have hu1 : ∀ u ∈ upre, (fun u : User => strictEq u.name username) u = false := hupre
  have hu2 : (fun u : User => strictEq u.name username) user = true := huser
  simp only [remove_device_from_user, remove_device_from_user_try, readData, Option.getD_some,
    bind, Except.bind, find_append_first _ upre upost user hu1 hu2, hheld,
    throw, throwThe, MonadExceptOf.throw, catchInternal]

/-- Assign when no device has the identifier. -/
theorem assign_no_device (deviceIdentifier username : Value) (devices : List Device)
    (upre upost : List User) (user : User)
    (hupre : ∀ u ∈ upre, strictEq u.name username = false) (huser : strictEq user.name username = true)
    (hnone : ∀ d ∈ devices, strictEq d.identifier deviceIdentifier = false) :
    add_device_to_user (File.doc ⟨some devices, some (upre ++ user :: upost)⟩)
        deviceIdentifier username
      = (⟨404, Body.error "Device not found"⟩,
         File.doc ⟨some devices, some (upre ++ user :: upost)⟩) := by
  have hu1 : ∀ u ∈ upre, (fun u : User => strictEq u.name username) u = false := hupre
  have hu2 : (fun u : User => strictEq u.name username) user = true := huser
  have hd1 : ∀ d ∈ devices, (fun d : Device => strictEq d.identifier deviceIdentifier) d = false :=
    hnone
  simp only [add_device_to_user, add_device_to_user_try, readData, Option.getD_some,
    bind, Except.bind, pure, Except.pure,
    find_append_first _ upre upost user hu1 hu2, find_eq_none _ _ hd1, catchInternal]

/-- C7. Release failure paths: without a user named `username` the handler
answers 404 "User not found"; when the first user of that name has a devices
sequence with no entry whose identifier equals `deviceIdentifier` as a string,
it answers 404 "Device not found in the user's devices", whatever the catalog
holds; in both cases the file is unchanged. -/
theorem release_failures (deviceIdentifier username : Value) :
    (∀ data : Data, (∀ u ∈ data.users.getD [], strictEq u.name username = false) →
      remove_device_from_user (File.doc data) deviceIdentifier username
        = (⟨404, Body.error "User not found"⟩, File.doc data))
    ∧ (∀ (devices : Option (List Device)) (upre upost : List User) (user : User)
        (held : List UserDevice),
      (∀ u ∈ upre, strictEq u.name username = false) → strictEq user.name username = true →
      user.devices = some held →
      (∀ e ∈ held, jsString e.identifier ≠ jsString deviceIdentifier) →
      remove_device_from_user (File.doc ⟨devices, some (upre ++ user :: upost)⟩)
          deviceIdentifier username
        = (⟨404, Body.error "Device not found in the user's devices"⟩,
           File.doc ⟨devices, some (upre ++ user :: upost)⟩)) :=
  ⟨fun data h => release_no_user data deviceIdentifier username h,
   fun devices upre upost user held hupre huser hheld hnone =>
     release_no_entry deviceIdentifier username devices upre upost user held
       hupre huser hheld hnone⟩

/-- Witness of C7: nobody is named bob; and alice holds nothing although D1 is
in the catalog. -/
theorem release_failures_witness :
    remove_device_from_user fileFree (.str "D1") (.str "bob") = (⟨404, Body.error "User not found"⟩, fileFree)
    ∧ remove_device_from_user (File.doc ⟨some [deviceD1], some [alice]⟩) (.str "D1") (.str "alice")
      = (⟨404, Body.error "Device not found in the user's devices"⟩,
         File.doc ⟨some [deviceD1], some [alice]⟩) :=
  ⟨(release_failures (.str "D1") (.str "bob")).1 _ (by decide),
   (release_failures (.str "D1") (.str "alice")).2 (some [deviceD1]) [] [] alice [] (by simp) rfl rfl (by simp)⟩

/-! ## Assign then Release -/

/-- C8. Assign followed by Release is a round trip: when the first user named
`username` has a devices list without an entry for `deviceIdentifier` and the
first device with that identifier has usage "no used" and user "available",
Assign answers 200, the user's list then ends with `{deviceIdentifier, "is
use"}`, a second Assign answers 400 "Device is already in use" and changes
nothing, and Release answers 200 and writes the original registry. -/
theorem assign_release_round_trip (file : File) (deviceIdentifier username : Value)
    (dpre dpost : List Device) (device : Device) (upre upost : List User) (user : User)
    (held : List UserDevice)
    (hfile : file = File.doc ⟨some (dpre ++ device :: dpost), some (upre ++ user :: upost)⟩)
    (hdpre : ∀ d ∈ dpre, strictEq d.identifier deviceIdentifier = false)
    (hdev : strictEq device.identifier deviceIdentifier = true)
    (husage : device.usage = "no used")
    (hfree : device.user = Value.str "available")
    (hupre : ∀ u ∈ upre, strictEq u.name username = false)
    (huser : strictEq user.name username = true)
    (hheld : user.devices = some held)
    (hnone : ∀ e ∈ held, jsString e.identifier ≠ jsString deviceIdentifier) :
    (add_device_to_user file deviceIdentifier username).1
      = ⟨200, Body.message "Device added to the user successfully"⟩
    ∧ listUserDevices (add_device_to_user file deviceIdentifier username).2 username
      = some (held ++ [⟨deviceIdentifier, "is use"⟩])
    ∧ add_device_to_user (add_device_to_user file deviceIdentifier username).2
        deviceIdentifier username
      = (⟨400, Body.error "Device is already in use"⟩,
         (add_device_to_user file deviceIdentifier username).2)
    ∧ remove_device_from_user (add_device_to_user file deviceIdentifier username).2
        deviceIdentifier username
      = (⟨200, Body.message "The device removed from user successfully"⟩, file) := by
  subst hfile
  have hne : device.usage ≠ "is use" := by rw [husage]; decide
  rw [assign_ok deviceIdentifier username dpre dpost device upre upost user
    hdpre hdev hne hupre huser]
  simp only [hheld, Option.getD_some]
  refine ⟨trivial, ?_, ?_, ?_⟩
  · exact list_found _ username upre upost
      { user with devices := some (held ++ [⟨deviceIdentifier, "is use"⟩]) } hupre huser
  · exact assign_conflict deviceIdentifier username dpre dpost
      { device with usage := "is use", user := username } upre upost
      { user with devices := some (held ++ [⟨deviceIdentifier, "is use"⟩]) }
      hdpre hdev rfl hupre huser
  · rw [release_ok deviceIdentifier username _ upre upost
      { user with devices := some (held ++ [⟨deviceIdentifier, "is use"⟩]) }
      held [] ⟨deviceIdentifier, "is use"⟩ hupre huser rfl hnone rfl]
    rw [updateFound_append_first _ _ dpre dpost
      { device with usage := "is use", user := username }
      hdpre hdev]
    obtain ⟨i1, i2, i3, i4, i5, i6, i7, i8⟩ := device
    obtain ⟨n1, n2, n3, n4, n5⟩ := user
    simp only at husage hfree hheld
    subst husage hfree hheld
    simp

/-- Witness of C8, the specification's example: alice holds nothing and D1 is
free; Assign, a refused second Assign, then Release lead back to the start. -/
theorem assign_release_round_trip_witness :
    (add_device_to_user fileFree (.str "D1") (.str "alice")).1
      = ⟨200, Body.message "Device added to the user successfully"⟩
    ∧ listUserDevices (add_device_to_user fileFree (.str "D1") (.str "alice")).2
        (.str "alice")
      = some ([] ++ [⟨.str "D1", "is use"⟩])
    ∧ add_device_to_user (add_device_to_user fileFree (.str "D1") (.str "alice")).2 (.str "D1") (.str "alice")
      = (⟨400, Body.error "Device is already in use"⟩,
         (add_device_to_user fileFree (.str "D1") (.str "alice")).2)
    ∧ remove_device_from_user (add_device_to_user fileFree (.str "D1") (.str "alice")).2 (.str "D1") (.str "alice")
      = (⟨200, Body.message "The device removed from user successfully"⟩, fileFree) :=
  assign_release_round_trip fileFree (.str "D1") (.str "alice") [] [] deviceD1 [] [] alice []
    rfl (by simp) rfl rfl rfl (by simp) rfl rfl (by simp)

/-! ## Deleting a device: `DELETE /delete_product` -/

/-- The answer of ListUserDevices does not depend on the catalog. -/
theorem list_catalog_irrelevant (devices1 devices2 : Option (List Device))
    (users : Option (List User)) (username : Value) :
    listUserDevices (File.doc ⟨devices1, users⟩) username
      = listUserDevices (File.doc ⟨devices2, users⟩) username := by
  simp only [listUserDevices, user_devices, user_devices_try, readData, bind, Except.bind]
  cases find (fun u : User => strictEq u.name username) (users.getD []) <;> rfl

/-- C10. Deleting a device does not cascade: when some catalog device has the
given identifier (compared as a string, `device` being the first one), the
handler answers 200 and writes the registry whose catalog has lost exactly that
device and whose users are as before, so that ListUserDevices answers the same
for every user; when no device has it, the handler answers 404 "Product not
found" and the file is unchanged. -/
theorem delete_no_cascade (identifier : Value) (users : Option (List User)) :
    (∀ (dpre dpost : List Device) (device : Device),
      (∀ d ∈ dpre, jsString d.identifier ≠ jsString identifier) →
      jsString device.identifier = jsString identifier →
      delete_product (File.doc ⟨some (dpre ++ device :: dpost), users⟩) identifier
        = (⟨200, Body.message "The product deleted successfully"⟩,
           File.doc ⟨some (dpre ++ dpost), users⟩)
      ∧ ∀ username,
        listUserDevices
          (delete_product (File.doc ⟨some (dpre ++ device :: dpost), users⟩) identifier).2
          username
        = listUserDevices (File.doc ⟨some (dpre ++ device :: dpost), users⟩) username)
    ∧ (∀ devices : List Device, (∀ d ∈ devices, jsString d.identifier ≠ jsString identifier) →
      delete_product (File.doc ⟨some devices, users⟩) identifier
        = (⟨404, Body.error "Product not found"⟩, File.doc ⟨some devices, users⟩)) := by
  constructor
  · intro dpre dpost device hdpre hdev
    have key : delete_product (File.doc ⟨some (dpre ++ device :: dpost), users⟩) identifier
        = (⟨200, Body.message "The product deleted successfully"⟩,
           File.doc ⟨some (dpre ++ dpost), users⟩) := by
      simp only [delete_product, delete_product_try, pure, Except.pure,
        findIndex_append_first (fun photo : Device => jsString photo.identifier == jsString identifier)
          dpre dpost device (fun d hd => by simpa using hdpre d hd) (by simpa using hdev),
        splice1_length_append, catchInternal]
    refine ⟨key, fun username => ?_⟩
    rw [key]
    exact list_catalog_irrelevant _ _ users username
  · intro devices hnone
    simp only [delete_product, delete_product_try, pure, Except.pure,
      findIndex_eq_none (fun photo : Device => jsString photo.identifier == jsString identifier)
        devices (fun d hd => by simpa using hnone d hd), catchInternal]

/-- Witness of C10: D1 is deleted while alice holds it; her list still shows
D1. Deleting the unknown D9 answers 404 and changes nothing. -/
theorem delete_no_cascade_witness :
    (delete_product fileHeld (.str "D1")
        = (⟨200, Body.message "The product deleted successfully"⟩,
           File.doc ⟨some [], some [aliceD1]⟩)
      ∧ ∀ username, listUserDevices (delete_product fileHeld (.str "D1")).2 username
          = listUserDevices fileHeld username)
    ∧ delete_product fileHeld (.str "D9") = (⟨404, Body.error "Product not found"⟩, fileHeld) :=
  ⟨(delete_no_cascade (.str "D1") (some [aliceD1])).1 [] [] deviceD1Alice (by simp) rfl,
   (delete_no_cascade (.str "D9") (some [aliceD1])).2 [deviceD1Alice]
     (by simp [jsString, deviceD1Alice])⟩

end Registry

namespace Registry

/-! ## Reachable registries are consistent -/

theorem heldIds_append (a b : List User) : heldIds (a ++ b) = heldIds a ++ heldIds b := by
  induction a with
  | nil => rfl
  | cons u us ih =>
    rw [List.cons_append]
    simp only [heldIds, ih, List.append_assoc]

theorem mem_heldIds (x : Value) (us : List User) :
    x ∈ heldIds us ↔ ∃ u ∈ us, ∃ e ∈ held u, e.identifier = x := by
  induction us with
  | nil => simp [heldIds]
  | cons u us ih =>
    simp only [heldIds, List.mem_append, List.mem_map, ih, List.mem_cons]
    constructor
    · rintro (⟨e, he, rfl⟩ | ⟨v, hv, e, he, rfl⟩)
      · exact ⟨u, Or.inl rfl, e, he, rfl⟩
      · exact ⟨v, Or.inr hv, e, he, rfl⟩
    · rintro ⟨v, rfl | hv, e, he, rfl⟩
      · exact Or.inl ⟨e, he, rfl⟩
      · exact Or.inr ⟨v, hv, e, he, rfl⟩

/-- With distinct catalog identifiers a device is determined by its identifier. -/
theorem device_unique {ds : List Device} (h : (ds.map (fun d => d.identifier)).Nodup)
    {a b : Device} (ha : a ∈ ds) (hb : b ∈ ds) (hab : a.identifier = b.identifier) : a = b :=
  List.inj_on_of_nodup_map h ha hb hab

theorem Strong.consistent {ds : List Device} {us : List User} (h : Strong ds us) :
    Consistent (File.doc ⟨some ds, some us⟩) := by
  intro d hd
  have hd1 : d ∈ ds := hd
  have same : ∀ u ∈ us, (∃ e ∈ held u, e.identifier = d.identifier) →
      d.usage = "is use" ∧ d.user = u.name := by
    rintro u hu ⟨e, he, hid⟩
    obtain ⟨d1, hd1m, h1, h2, h3⟩ := h.entryDevice u hu e he
    have heq : d1 = d := device_unique h.nodupIds hd1m hd1 (by rw [h1, hid])
    subst heq
    exact ⟨h2, h3⟩
  refine ⟨⟨fun hu => (mem_heldIds _ _).mp (h.usedHeld d hd1 hu),
      fun ⟨u, hu, hh⟩ => (same u hu hh).1⟩,
    fun u hu hh => (same u hu hh).2,
    fun hno => h.freeUser d hd1 (fun hu => hno ((mem_heldIds _ _).mp (h.usedHeld d hd1 hu)))⟩

theorem Strong.empty : Strong [] [] where
  nodupIds := by simp
  strIds := by simp
  entryDevice := by simp
  nodupHeld := by simp [heldIds]
  freeUser := by simp
  usedHeld := by simp

theorem Strong.add_user {ds : List Device} {us : List User} (h : Strong ds us)
    (name surname login password : Value) :
    Strong ds (us ++ [⟨name, surname, login, password, some []⟩]) where
  nodupIds := h.nodupIds
  strIds := h.strIds
  entryDevice := by
    intro u hu e he
    rcases List.mem_append.mp hu with hu | hu
    · exact h.entryDevice u hu e he
    · rw [List.mem_singleton] at hu
      subst hu
      simp [held] at he
  nodupHeld := by
    rw [heldIds_append]
    simpa [heldIds, held] using h.nodupHeld
  freeUser := h.freeUser
  usedHeld := by
    intro d hd hu
    rw [heldIds_append]
    exact List.mem_append_left _ (h.usedHeld d hd hu)

theorem Strong.upload {ds : List Device} {us : List User} (h : Strong ds us)
    (identifier : String) (name description serialNumber manufacturer : Value)
    (filename : String)
    (hfresh : ∀ d ∈ ds, d.identifier ≠ Value.str identifier) :
    Strong (ds ++ [⟨Value.str identifier, name, description, serialNumber, manufacturer, filename,
      "no used", Value.str "available"⟩]) us where
  strIds := by
    intro d hd
    rcases List.mem_append.mp hd with hd | hd
    · exact h.strIds d hd
    · rw [List.mem_singleton] at hd
      subst hd
      exact ⟨identifier, rfl⟩
  nodupIds := by
    rw [List.map_append, List.nodup_append]
    refine ⟨h.nodupIds, by simp, ?_⟩
    intro x hx hx2
    obtain ⟨d, hd, rfl⟩ := List.mem_map.mp hx
    simp at hx2
    exact hfresh d hd hx2
  entryDevice := by
    intro u hu e he
    obtain ⟨d, hd, hh⟩ := h.entryDevice u hu e he
    exact ⟨d, List.mem_append_left _ hd, hh⟩
  nodupHeld := h.nodupHeld
  freeUser := by
    intro d hd hu
    rcases List.mem_append.mp hd with hd | hd
    · exact h.freeUser d hd hu
    · rw [List.mem_singleton] at hd
      subst hd
      rfl
  usedHeld := by
    intro d hd hu
    rcases List.mem_append.mp hd with hd | hd
    · exact h.usedHeld d hd hu
    · rw [List.mem_singleton] at hd
      subst hd
      have hne : ("no used" : String) ≠ "is use" := by decide
      exact absurd hu hne

theorem updateAt_map {α β : Type} (f : α → α) (g : α → β) (hfg : ∀ x, g (f x) = g x)
    (i : Nat) (xs : List α) : (updateAt f i xs).map g = xs.map g := by
  induction xs generalizing i with
  | nil => cases i <;> rfl
  | cons x xs ih =>
    cases i with
    | zero => simp [updateAt, hfg]
    | succ n => simp [updateAt, ih]

theorem mem_updateAt {α : Type} (f : α → α) (i : Nat) (xs : List α) (y : α)
    (hy : y ∈ updateAt f i xs) : y ∈ xs ∨ ∃ x ∈ xs, y = f x := by
  induction xs generalizing i with
  | nil => cases i <;> simp [updateAt] at hy
  | cons x xs ih =>
    cases i with
    | zero =>
      simp only [updateAt, List.mem_cons] at hy
      rcases hy with rfl | hy
      · exact Or.inr ⟨x, List.mem_cons_self _ _, rfl⟩
      · exact Or.inl (List.mem_cons_of_mem _ hy)
    | succ n =>
      simp only [updateAt, List.mem_cons] at hy
      rcases hy with rfl | hy
      · exact Or.inl (List.mem_cons_self _ _)
      · rcases ih n hy with h | ⟨z, hz, rfl⟩
        · exact Or.inl (List.mem_cons_of_mem _ h)
        · exact Or.inr ⟨z, List.mem_cons_of_mem _ hz, rfl⟩

theorem updateAt_mem {α : Type} (f : α → α) (i : Nat) (xs : List α) (x : α)
    (hx : x ∈ xs) : x ∈ updateAt f i xs ∨ f x ∈ updateAt f i xs := by
  induction xs generalizing i with
  | nil => simp at hx
  | cons y ys ih =>
    cases i with
    | zero =>
      simp only [updateAt, List.mem_cons]
      rcases List.mem_cons.mp hx with rfl | hx
      · exact Or.inr (Or.inl rfl)
      · exact Or.inl (Or.inr hx)
    | succ n =>
      simp only [updateAt, List.mem_cons]
      rcases List.mem_cons.mp hx with rfl | hx
      · exact Or.inl (Or.inl rfl)
      · rcases ih n hx with h | h
        · exact Or.inl (Or.inr h)
        · exact Or.inr (Or.inr h)

theorem Strong.edit {ds : List Device} {us : List User} (h : Strong ds us)
    (f : Device → Device) (i : Nat)
    (hf : ∀ d, (f d).identifier = d.identifier ∧ (f d).usage = d.usage ∧ (f d).user = d.user) :
    Strong (updateAt f i ds) us where
  strIds := by
    intro d hd
    rcases mem_updateAt f i ds d hd with hm | ⟨x, hx, rfl⟩
    · exact h.strIds d hm
    · rw [(hf x).1]
      exact h.strIds x hx
  nodupIds := by
    rw [updateAt_map f (fun d => d.identifier) (fun d => (hf d).1)]
    exact h.nodupIds
  entryDevice := by
    intro u hu e he
    obtain ⟨d, hd, h1, h2, h3⟩ := h.entryDevice u hu e he
    rcases updateAt_mem f i ds d hd with hm | hm
    · exact ⟨d, hm, h1, h2, h3⟩
    · exact ⟨f d, hm, by rw [(hf d).1, h1], by rw [(hf d).2.1, h2], by rw [(hf d).2.2, h3]⟩
  nodupHeld := h.nodupHeld
  freeUser := by
    intro d hd hu
    rcases mem_updateAt f i ds d hd with hm | ⟨x, hx, rfl⟩
    · exact h.freeUser d hm hu
    · rw [(hf x).2.2]
      exact h.freeUser x hx (by rw [← (hf x).2.1]; exact hu)
  usedHeld := by
    intro d hd hu
    rcases mem_updateAt f i ds d hd with hm | ⟨x, hx, rfl⟩
    · exact h.usedHeld d hm hu
    · rw [(hf x).1]
      exact h.usedHeld x hx (by rw [← (hf x).2.1]; exact hu)


theorem Strong.assign {dpre dpost : List Device} {device : Device} {upre upost : List User}
    {user : User} (username : Value)
    (h : Strong (dpre ++ device :: dpost) (upre ++ user :: upost))
    (husage : device.usage ≠ "is use") (huser : user.name = username) :
    Strong (dpre ++ { device with usage := "is use", user := username } :: dpost)
      (upre ++ { user with
        devices := some (user.devices.getD [] ++ [⟨device.identifier, "is use"⟩]) } :: upost) := by
  have hnot : device.identifier ∉ heldIds (upre ++ user :: upost) := by
    intro hm
    obtain ⟨u, hu, e, he, hid⟩ := (mem_heldIds _ _).mp hm
    obtain ⟨d1, hd1, h1, h2, _⟩ := h.entryDevice u hu e he
    have heq : d1 = device := device_unique h.nodupIds hd1 (by simp) (by rw [h1, hid])
    subst heq
    exact husage h2
  have hkeep : ∀ d ∈ dpre ++ device :: dpost, d.usage = "is use" →
      d ∈ dpre ++ { device with usage := "is use", user := username } :: dpost := by
    intro d hd hu
    simp only [List.mem_append, List.mem_cons] at hd ⊢
    rcases hd with hd | rfl | hd
    · exact Or.inl hd
    · exact absurd hu husage
    · exact Or.inr (Or.inr hd)
  have hids : heldIds (upre ++ { user with
        devices := some (user.devices.getD [] ++ [⟨device.identifier, "is use"⟩]) } :: upost)
      = heldIds upre ++ ((held user).map (fun e => e.identifier) ++ [device.identifier])
        ++ heldIds upost := by
    rw [heldIds_append]
    simp [heldIds, held]
  have hids0 : heldIds (upre ++ user :: upost)
      = heldIds upre ++ (held user).map (fun e => e.identifier) ++ heldIds upost := by
    rw [heldIds_append]
    simp [heldIds]
  constructor
  · simpa using h.nodupIds
  · intro d hd
    simp only [List.mem_append, List.mem_cons] at hd
    rcases hd with hd | rfl | hd
    · exact h.strIds d (by simp [hd])
    · exact h.strIds device (by simp)
    · exact h.strIds d (by simp [hd])
  · intro u hu e he
    simp only [List.mem_append, List.mem_cons] at hu
    have old : ∀ v ∈ upre ++ user :: upost, v.name = u.name → e ∈ held v →
        ∃ d ∈ dpre ++ { device with usage := "is use", user := username } :: dpost,
          d.identifier = e.identifier ∧ d.usage = "is use" ∧ d.user = u.name := by
      intro v hv hname hev
      obtain ⟨d, hd, h1, h2, h3⟩ := h.entryDevice v hv e hev
      exact ⟨d, hkeep d hd h2, h1, h2, by rw [h3, hname]⟩
    rcases hu with hu | rfl | hu
    · exact old u (by simp [hu]) rfl he
    · simp only [held, Option.getD_some, List.mem_append, List.mem_singleton] at he
      rcases he with he | rfl
      · exact old user (by simp) rfl he
      · exact ⟨{ device with usage := "is use", user := username }, by simp, rfl, rfl,
          huser.symm⟩
    · exact old u (by simp [hu]) rfl he
  · rw [List.nodup_iff_count_le_one]
    intro x
    have h0 := List.nodup_iff_count_le_one.mp h.nodupHeld x
    rw [hids0] at h0 hnot
    rw [hids]
    simp only [List.count_append, List.count_cons, List.count_nil] at h0 ⊢
    by_cases hx : device.identifier = x
    · subst hx
      have hz := List.count_eq_zero.mpr hnot
      simp only [List.count_append] at hz
      simp
      omega
    · simp [hx]
      omega
  · intro d hd hu
    simp only [List.mem_append, List.mem_cons] at hd
    rcases hd with hd | rfl | hd
    · exact h.freeUser d (by simp [hd]) hu
    · exact absurd rfl hu
    · exact h.freeUser d (by simp [hd]) hu
  · intro d hd hu
    rw [hids]
    simp only [List.mem_append, List.mem_cons] at hd
    have old : ∀ d ∈ dpre ++ device :: dpost, d.usage = "is use" →
        d.identifier ∈ heldIds upre ++ ((held user).map (fun e => e.identifier)
          ++ [device.identifier]) ++ heldIds upost := by
      intro d hd hu
      have hm := h.usedHeld d hd hu
      rw [hids0] at hm
      simp only [List.mem_append] at hm ⊢
      tauto
    rcases hd with hd | rfl | hd
    · exact old d (by simp [hd]) hu
    · simp
    · exact old d (by simp [hd]) hu

theorem Strong.release {ds : List Device} {upre upost : List User} {user : User}
    {hpre hpost : List UserDevice} {entry : UserDevice} (deviceIdentifier : String)
    (h : Strong ds (upre ++ user :: upost))
    (hheld : user.devices = some (hpre ++ entry :: hpost))
    (hmatch : jsString entry.identifier = deviceIdentifier) :
    Strong (updateFound (fun d => strictEq d.identifier (Value.str deviceIdentifier))
        (fun d => { d with usage := "no used", user := Value.str "available" }) ds)
      (upre ++ { user with devices := some (hpre ++ hpost) } :: upost) := by
  have hentry : entry ∈ held user := by simp [held, hheld]
  obtain ⟨d0, hd0, hid0, _, _⟩ := h.entryDevice user (by simp) entry hentry
  have hstr : entry.identifier = Value.str deviceIdentifier := by
    obtain ⟨s, hs⟩ := h.strIds d0 hd0
    rw [← hid0, hs]
    rw [← hid0, hs] at hmatch
    simp only [jsString] at hmatch
    rw [hmatch]
  obtain ⟨dpre, device, dpost, hds, hdpre, hdev⟩ :=
    exists_first_split (fun d : Device => strictEq d.identifier (Value.str deviceIdentifier)) ds
      ⟨d0, hd0, by
        show strictEq d0.identifier (Value.str deviceIdentifier) = true
        rw [strictEq_str, hid0, hstr]
        simp⟩
  subst hds
  rw [updateFound_append_first _ _ dpre dpost device hdpre hdev]
  have hdev1 : device.identifier = entry.identifier := by
    rw [hstr]
    exact strictEq_eq hdev
  have hother : ∀ d, d ∈ dpre ∨ d ∈ dpost → d.identifier ≠ entry.identifier := by
    intro d hd hid
    have hn := h.nodupIds
    rw [List.map_append, List.map_cons] at hn
    have hn2 := (List.nodup_middle.mp hn)
    rw [List.nodup_cons] at hn2
    apply hn2.1
    rw [← List.map_append, hdev1, ← hid]
    exact List.mem_map_of_mem _ (List.mem_append.mpr hd)
  have hids0 : heldIds (upre ++ user :: upost)
      = heldIds upre ++ (hpre.map (fun e => e.identifier) ++ entry.identifier ::
          hpost.map (fun e => e.identifier)) ++ heldIds upost := by
    rw [heldIds_append]
    simp [heldIds, held, hheld]
  have hids : heldIds (upre ++ { user with devices := some (hpre ++ hpost) } :: upost)
      = heldIds upre ++ (hpre.map (fun e => e.identifier) ++
          hpost.map (fun e => e.identifier)) ++ heldIds upost := by
    rw [heldIds_append]
    simp [heldIds, held]
  have hcount : ∀ x, List.count x (heldIds (upre ++ user :: upost))
      = List.count x (heldIds (upre ++ { user with devices := some (hpre ++ hpost) } :: upost))
        + (if entry.identifier = x then 1 else 0) := by
    intro x
    rw [hids0, hids]
    simp only [List.count_append, List.count_cons, beq_iff_eq]
    omega
  have hgone : entry.identifier ∉
      heldIds (upre ++ { user with devices := some (hpre ++ hpost) } :: upost) := by
    have h0 := List.nodup_iff_count_le_one.mp h.nodupHeld entry.identifier
    rw [hcount] at h0
    simp only [if_true] at h0
    exact List.count_eq_zero.mp (by omega)
  have hstay : ∀ x, x ∈ heldIds (upre ++ user :: upost) → x ≠ entry.identifier →
      x ∈ heldIds (upre ++ { user with devices := some (hpre ++ hpost) } :: upost) := by
    intro x hx hne
    rw [hids0] at hx
    rw [hids]
    simp only [List.mem_append, List.mem_cons] at hx ⊢
    tauto
  constructor
  · simpa using h.nodupIds
  · intro d hd
    simp only [List.mem_append, List.mem_cons] at hd
    rcases hd with hd | rfl | hd
    · exact h.strIds d (by simp [hd])
    · exact h.strIds device (by simp)
    · exact h.strIds d (by simp [hd])
  · intro u hu e he
    have hne : e.identifier ≠ entry.identifier := by
      intro heq
      apply hgone
      rw [← heq]
      exact (mem_heldIds _ _).mpr ⟨u, hu, e, he, rfl⟩
    have old : ∀ v ∈ upre ++ user :: upost, v.name = u.name → e ∈ held v →
        ∃ d ∈ dpre ++ { device with usage := "no used", user := Value.str "available" } :: dpost,
          d.identifier = e.identifier ∧ d.usage = "is use" ∧ d.user = u.name := by
      intro v hv hname hev
      obtain ⟨d, hd, h1, h2, h3⟩ := h.entryDevice v hv e hev
      refine ⟨d, ?_, h1, h2, by rw [h3, hname]⟩
      simp only [List.mem_append, List.mem_cons] at hd ⊢
      rcases hd with hd | rfl | hd
      · exact Or.inl hd
      · exact absurd (h1.symm.trans hdev1) hne
      · exact Or.inr (Or.inr hd)
    simp only [List.mem_append, List.mem_cons] at hu
    rcases hu with hu | rfl | hu
    · exact old u (by simp [hu]) rfl he
    · refine old user (by simp) rfl ?_
      simp only [held, Option.getD_some, List.mem_append] at he
      simp only [held, hheld, Option.getD_some, List.mem_append, List.mem_cons]
      tauto
    · exact old u (by simp [hu]) rfl he
  · rw [List.nodup_iff_count_le_one]
    intro x
    have h0 := List.nodup_iff_count_le_one.mp h.nodupHeld x
    rw [hcount] at h0
    omega
  · intro d hd hu
    simp only [List.mem_append, List.mem_cons] at hd
    rcases hd with hd | rfl | hd
    · exact h.freeUser d (by simp [hd]) hu
    · rfl
    · exact h.freeUser d (by simp [hd]) hu
  · intro d hd hu
    simp only [List.mem_append, List.mem_cons] at hd
    have hne : ("no used" : String) ≠ "is use" := by decide
    rcases hd with hd | rfl | hd
    · exact hstay _ (h.usedHeld d (by simp [hd]) hu) (hother d (Or.inl hd))
    · exact absurd hu hne
    · exact hstay _ (h.usedHeld d (by simp [hd]) hu) (hother d (Or.inr hd))

/-! ### What each handler writes on a document with both collections -/

theorem add_user_shape (ds : List Device) (us : List User)
    (name surname login password : Value) :
    (add_user (File.doc ⟨some ds, some us⟩) name surname login password).2
        = File.doc ⟨some ds, some us⟩
    ∨ (add_user (File.doc ⟨some ds, some us⟩) name surname login password).2
        = File.doc ⟨some ds, some (us ++ [⟨name, surname, login, password, some []⟩])⟩ := by
  simp only [add_user, add_user_try, readData, bind, Except.bind, Option.getD_some]
  split
  · exact Or.inl rfl
  · exact Or.inr rfl

theorem upload_shape (ds : List Device) (us : List User)
    (identifier name description serialNumber manufacturer : Value)
    (originalname : Option String) :
    (upload (File.doc ⟨some ds, some us⟩) identifier name description serialNumber manufacturer
        originalname).2 = File.doc ⟨some ds, some us⟩
    ∨ ∃ filename, (upload (File.doc ⟨some ds, some us⟩) identifier name description serialNumber
        manufacturer originalname).2
      = File.doc ⟨some (ds ++ [⟨identifier, name, description, serialNumber, manufacturer,
          filename, "no used", Value.str "available"⟩]), some us⟩ := by
  cases originalname with
  | none => exact Or.inl rfl
  | some filename => exact Or.inr ⟨filename, rfl⟩

theorem edit_product_shape (ds : List Device) (us : List User)
    (identifier name description serialNumber manufacturer : Value) :
    (edit_product (File.doc ⟨some ds, some us⟩) identifier name description serialNumber
        manufacturer).2 = File.doc ⟨some ds, some us⟩
    ∨ ∃ (f : Device → Device) (i : Nat),
      (∀ d, (f d).identifier = d.identifier ∧ (f d).usage = d.usage ∧ (f d).user = d.user)
      ∧ (edit_product (File.doc ⟨some ds, some us⟩) identifier name description serialNumber
          manufacturer).2 = File.doc ⟨some (updateAt f i ds), some us⟩ := by
  simp only [edit_product, edit_product_try, readData, bind, Except.bind]
  cases hidx : findIndex (fun device : Device => strictEq device.identifier identifier) ds with
  | none => exact Or.inl rfl
  | some index =>
    exact Or.inr ⟨fun existingDevice =>
      { existingDevice with
        name := orExisting name existingDevice.name
        description := orExisting description existingDevice.description
        serialNumber := orExisting serialNumber existingDevice.serialNumber
        manufacturer := orExisting manufacturer existingDevice.manufacturer },
      index, fun d => ⟨rfl, rfl, rfl⟩, rfl⟩

theorem assign_shape (ds : List Device) (us : List User) (deviceIdentifier username : Value) :
    (add_device_to_user (File.doc ⟨some ds, some us⟩) deviceIdentifier username).2
        = File.doc ⟨some ds, some us⟩
    ∨ ∃ dpre device dpost upre user upost,
      ds = dpre ++ device :: dpost ∧ us = upre ++ user :: upost
      ∧ device.usage ≠ "is use" ∧ user.name = username
      ∧ (add_device_to_user (File.doc ⟨some ds, some us⟩) deviceIdentifier username).2
        = File.doc ⟨some (dpre ++ { device with usage := "is use", user := username } :: dpost),
            some (upre ++ { user with
              devices := some (user.devices.getD [] ++ [⟨device.identifier, "is use"⟩]) }
              :: upost)⟩ := by
  by_cases hU : ∃ u ∈ us, (fun u : User => strictEq u.name username) u = true
  · obtain ⟨upre, user, upost, hus, hupre, huser⟩ := exists_first_split _ us hU
    subst hus
    by_cases hD : ∃ d ∈ ds, (fun d : Device => strictEq d.identifier deviceIdentifier) d = true
    · obtain ⟨dpre, device, dpost, hds, hdpre, hdev⟩ := exists_first_split _ ds hD
      subst hds
      by_cases husage : device.usage = "is use"
      · left
        rw [assign_conflict deviceIdentifier username dpre dpost device upre upost user
          hdpre hdev husage hupre huser]
      · right
        refine ⟨dpre, device, dpost, upre, user, upost, rfl, rfl, husage, strictEq_eq huser, ?_⟩
        rw [assign_ok deviceIdentifier username dpre dpost device upre upost user
          hdpre hdev husage hupre huser, strictEq_eq hdev]
    · left
      rw [assign_no_device deviceIdentifier username ds upre upost user hupre huser
        (fun d hd => by
          cases hc : strictEq d.identifier deviceIdentifier with
          | false => rfl
          | true => exact absurd ⟨d, hd, hc⟩ hD)]
  · left
    rw [assign_no_user ⟨some ds, some us⟩ deviceIdentifier username
      (fun u hu => by
        cases hc : strictEq u.name username with
        | false => rfl
        | true => exact absurd ⟨u, hu, hc⟩ hU)]

theorem release_shape (ds : List Device) (us : List User) (deviceIdentifier : String)
    (username : Value) :
    (remove_device_from_user (File.doc ⟨some ds, some us⟩) (Value.str deviceIdentifier)
        username).2 = File.doc ⟨some ds, some us⟩
    ∨ ∃ upre user upost hpre entry hpost,
      us = upre ++ user :: upost ∧ user.devices = some (hpre ++ entry :: hpost)
      ∧ jsString entry.identifier = deviceIdentifier
      ∧ (remove_device_from_user (File.doc ⟨some ds, some us⟩) (Value.str deviceIdentifier)
          username).2
        = File.doc ⟨some (updateFound
              (fun d => strictEq d.identifier (Value.str deviceIdentifier))
              (fun d => { d with usage := "no used", user := Value.str "available" }) ds),
            some (upre ++ { user with devices := some (hpre ++ hpost) } :: upost)⟩ := by
  by_cases hU : ∃ u ∈ us, (fun u : User => strictEq u.name username) u = true
  · obtain ⟨upre, user, upost, hus, hupre, huser⟩ := exists_first_split _ us hU
    subst hus
    cases hheld : user.devices with
    | none =>
      left
      rw [release_no_devices_field (Value.str deviceIdentifier) username _ upre upost user
        hupre huser hheld]
    | some held =>
      by_cases hE : ∃ e ∈ held, (fun e : UserDevice =>
          jsString e.identifier == jsString (Value.str deviceIdentifier)) e = true
      · obtain ⟨hpre, entry, hpost, hsplit, hhpre, hentry⟩ := exists_first_split _ held hE
        subst hsplit
        right
        refine ⟨upre, user, upost, hpre, entry, hpost, rfl, hheld,
          by simpa [jsString] using hentry, ?_⟩
        rw [release_ok (Value.str deviceIdentifier) username ds upre upost user hpre hpost entry
          hupre huser hheld (fun e he => by simpa using hhpre e he) (by simpa using hentry)]
      · left
        rw [release_no_entry (Value.str deviceIdentifier) username _ upre upost user held
          hupre huser hheld (fun e he hid => hE ⟨e, he, by simpa using hid⟩)]
  · left
    rw [release_no_user ⟨some ds, some us⟩ (Value.str deviceIdentifier) username
      (fun u hu => by
        cases hc : strictEq u.name username with
        | false => rfl
        | true => exact absurd ⟨u, hu, hc⟩ hU)]

/-- The predicate `Consistent` is not vacuous: a catalog device marked as used by
alice while alice lists nothing is rejected. -/
theorem not_consistent_unlisted_use :
    ¬ Consistent (File.doc ⟨some [deviceD1Alice], some [alice]⟩) := by
  intro h
  obtain ⟨u, hu, e, he, _⟩ := (h deviceD1Alice (by simp [catalog])).1.mp rfl
  simp only [usersOf, Option.getD_some, List.mem_singleton] at hu
  subst hu
  simp [held, alice] at he

/-- Every reachable file is a document with both collections, satisfying `Strong`. -/
theorem reachable_strong (file : File) (h : Reachable file) :
    ∃ ds us, file = File.doc ⟨some ds, some us⟩ ∧ Strong ds us := by
  induction h with
  | empty => exact ⟨[], [], rfl, Strong.empty⟩
  | user_added name surname login password _ ih =>
    obtain ⟨ds, us, rfl, hs⟩ := ih
    rcases add_user_shape ds us name surname login password with h | h
    · exact ⟨ds, us, h, hs⟩
    · exact ⟨ds, _, h, hs.add_user name surname login password⟩
  | uploaded identifier name description serialNumber manufacturer originalname _ hfresh ih =>
    obtain ⟨ds, us, rfl, hs⟩ := ih
    rcases upload_shape ds us (Value.str identifier) name description serialNumber manufacturer
      originalname with h | ⟨filename, h⟩
    · exact ⟨ds, us, h, hs⟩
    · exact ⟨_, us, h, hs.upload identifier name description serialNumber manufacturer filename
        hfresh⟩
  | edited identifier name description serialNumber manufacturer _ ih =>
    obtain ⟨ds, us, rfl, hs⟩ := ih
    rcases edit_product_shape ds us identifier name description serialNumber manufacturer
      with h | ⟨f, i, hf, h⟩
    · exact ⟨ds, us, h, hs⟩
    · exact ⟨_, us, h, hs.edit f i hf⟩
  | assigned deviceIdentifier username _ ih =>
    obtain ⟨ds, us, rfl, hs⟩ := ih
    rcases assign_shape ds us deviceIdentifier username
      with h | ⟨dpre, device, dpost, upre, user, upost, rfl, rfl, husage, huser, h⟩
    · exact ⟨ds, us, h, hs⟩
    · exact ⟨_, _, h, hs.assign username husage huser⟩
  | released deviceIdentifier username _ ih =>
    obtain ⟨ds, us, rfl, hs⟩ := ih
    rcases release_shape ds us deviceIdentifier username
      with h | ⟨upre, user, upost, hpre, entry, hpost, rfl, hheld, hmatch, h⟩
    · exact ⟨ds, us, h, hs⟩
    · exact ⟨_, _, h, hs.release deviceIdentifier hheld hmatch⟩

/-- C9 (counterexample). One user creation, one upload, one Assign and one
Release, served from the empty document: the Release carries
`deviceIdentifier[]=D1`, which matches alice's entry through `String(...)` but
no catalog device through `===`. It answers 200, empties alice's list and
leaves D1 with usage "is use" and user alice: the registry is not
consistent. -/
theorem array_release_breaks_consistency :
    run emptyFile [addAlice, uploadD1, .add_device_to_user (.str "D1") (.str "alice")] = fileHeld
    ∧ remove_device_from_user fileHeld (.arr ["D1"]) (.str "alice")
      = (⟨200, Body.message "The device removed from user successfully"⟩,
         File.doc ⟨some [deviceD1Alice], some [alice]⟩)
    ∧ run emptyFile arrayReleaseRun = File.doc ⟨some [deviceD1Alice], some [alice]⟩
    ∧ ¬ Consistent (run emptyFile arrayReleaseRun) := by
  refine ⟨by decide, by decide, by decide, ?_⟩
  have hrun : run emptyFile arrayReleaseRun = File.doc ⟨some [deviceD1Alice], some [alice]⟩ := by
    decide
  rw [hrun]
  exact not_consistent_unlisted_use

/-- A second run that ends in an inconsistent registry, with a string in the
Release: the upload and the Assign carry no identifier, and the Release carries
"undefined", which is what `String(...)` makes of the absent identifier of
alice's entry while `===` finds no catalog device. -/
theorem undefined_release_breaks_consistency :
    ¬ Consistent (run emptyFile undefinedReleaseRun) := by
  have hrun : run emptyFile undefinedReleaseRun
      = File.doc ⟨some [⟨.undefined, .str "Camera", .str "A camera", .str "SN-1", .str "Acme",
          "d1.jpg", "is use", .str "alice"⟩], some [alice]⟩ := by decide
  rw [hrun]
  intro h
  obtain ⟨u, hu, e, he, _⟩ := (h ⟨.undefined, .str "Camera", .str "A camera", .str "SN-1",
    .str "Acme", "d1.jpg", "is use", .str "alice"⟩ (by simp [catalog])).1.mp rfl
  simp only [usersOf, Option.getD_some, List.mem_singleton] at hu
  subst hu
  simp [held, alice] at he

/-- C9 (amended). Registry consistency invariant: in every file reachable from
the empty document by user creations, uploads whose identifier is a string not
yet in the catalog, product edits, Assign calls, and Release calls whose
deviceIdentifier is a string, every device has usage "is use" exactly when some
user lists its identifier, its user is the name of the user listing it, and its
user is "available" when nobody lists it. -/
theorem reachable_consistent (file : File) (h : Reachable file) : Consistent file := by
  obtain ⟨ds, us, rfl, hs⟩ := reachable_strong file h
  exact hs.consistent

/-- Witness of C9 (amended): the registry in which alice holds D1 is reached
from the empty document by creating alice, uploading D1 and assigning D1 to
alice, and it is consistent. -/
theorem reachable_consistent_witness : Reachable fileHeld ∧ Consistent fileHeld :=
  have hr : Reachable fileHeld :=
    Reachable.assigned (.str "D1") (.str "alice")
      (Reachable.uploaded "D1" (.str "Camera") (.str "A camera") (.str "SN-1") (.str "Acme")
        (some "d1.jpg")
        (Reachable.user_added (.str "alice") (.str "Liddell") (.str "alice01") (.str "secret")
          Reachable.empty)
        (by decide))
  ⟨hr, reachable_consistent fileHeld hr⟩

end Registry

namespace Registry

/-! ## User creation: `POST /add_user` -/

theorem some_eq_true_iff {α : Type} (p : α → Bool) (xs : List α) :
    some_ p xs = true ↔ ∃ x ∈ xs, p x = true := by
  induction xs with
  | nil => simp [some_]
  | cons y ys ih => simp [some_, ih]

theorem updateFound_map {α β : Type} (p : α → Bool) (f : α → α) (g : α → β)
    (hfg : ∀ x, g (f x) = g x) (xs : List α) : (updateFound p f xs).map g = xs.map g := by
  induction xs with
  | nil => rfl
  | cons x xs ih =>
    simp only [updateFound]
    split
    · simp [hfg]
    · simp [ih]

/-- Creating a user whose login is taken. -/
theorem add_user_duplicate (data : Data) (name surname login password : Value)
    (h : ∃ u ∈ data.users.getD [], strictEq u.login login = true) :
    add_user (File.doc data) name surname login password
      = (⟨400, Body.error "User with the login already exists"⟩, File.doc data) := by
  have hs : some_ (fun user : User => strictEq user.login login) (data.users.getD []) = true :=
    (some_eq_true_iff _ _).mpr h
  simp only [add_user, add_user_try, readData, bind, Except.bind, hs, if_true, pure, Except.pure,
    catchInternal]

/-- Creating a user whose login is new. -/
theorem add_user_fresh (data : Data) (name surname login password : Value)
    (h : ∀ u ∈ data.users.getD [], strictEq u.login login = false) :
    add_user (File.doc data) name surname login password
      = (⟨200, Body.message "User added successfully"⟩,
         File.doc { data with
           users := some (data.users.getD [] ++ [⟨name, surname, login, password, some []⟩]) }) := by
  have hs : some_ (fun user : User => strictEq user.login login) (data.users.getD []) = false := by
    cases hc : some_ (fun user : User => strictEq user.login login) (data.users.getD []) with
    | false => rfl
    | true =>
      obtain ⟨u, hu, hl⟩ := (some_eq_true_iff _ _).mp hc
      rw [h u hu] at hl
      exact absurd hl (by decide)
  simp only [add_user, add_user_try, readData, bind, Except.bind, hs, pure, Except.pure,
    catchInternal]
  rfl

/-- The logins after `add_user` with a login that is not an array: as before,
or with the new login, which was not there, at the end. -/
theorem add_user_logins (file : File) (name surname login password : Value)
    (hlogin : ∀ items, login ≠ Value.arr items) :
    logins (add_user file name surname login password).2 = logins file
    ∨ (login ∉ logins file
      ∧ logins (add_user file name surname login password).2 = logins file ++ [login]) := by
  cases file with
  | unreadable => exact Or.inl rfl
  | null => exact Or.inr ⟨by simp [logins, usersOf], rfl⟩
  | doc data =>
    by_cases h : ∃ u ∈ data.users.getD [], strictEq u.login login = true
    · left
      rw [add_user_duplicate data name surname login password h]
    · right
      have h1 : ∀ u ∈ data.users.getD [], strictEq u.login login = false := by
        intro u hu
        cases hc : strictEq u.login login with
        | false => rfl
        | true => exact absurd ⟨u, hu, hc⟩ h
      rw [add_user_fresh data name surname login password h1]
      refine ⟨?_, by simp [logins, usersOf]⟩
      simp only [logins, usersOf, List.mem_map, not_exists, not_and]
      intro u hu hl
      have h2 := h1 u hu
      rw [strictEq_of_not_arr _ _ hlogin, hl] at h2
      simp at h2

theorem upload_logins (file : File)
    (identifier name description serialNumber manufacturer : Value)
    (originalname : Option String) :
    logins (upload file identifier name description serialNumber manufacturer originalname).2
      = logins file := by
  cases originalname with
  | none => rfl
  | some filename => cases file <;> rfl

theorem edit_product_logins (file : File)
    (identifier name description serialNumber manufacturer : Value) :
    logins (edit_product file identifier name description serialNumber manufacturer).2
      = logins file := by
  cases file with
  | unreadable => rfl
  | null => rfl
  | doc data =>
    simp only [edit_product, edit_product_try, readData, bind, Except.bind]
    split
    · rfl
    · split <;> rfl

theorem assign_logins (file : File) (deviceIdentifier username : Value) :
    logins (add_device_to_user file deviceIdentifier username).2 = logins file := by
  cases file with
  | unreadable => rfl
  | null => rfl
  | doc data =>
    simp only [add_device_to_user, add_device_to_user_try, readData, bind, Except.bind]
    split
    · split
      · split
        · simp only [pure, Except.pure, catchInternal, logins, usersOf, Option.getD_some]
          apply updateFound_map
          intro x
          rfl
        · rfl
      · rfl
    · rfl

theorem release_logins (file : File) (deviceIdentifier username : Value) :
    logins (remove_device_from_user file deviceIdentifier username).2 = logins file := by
  cases file with
  | unreadable => rfl
  | null => rfl
  | doc data =>
    simp only [remove_device_from_user, remove_device_from_user_try, readData, bind, Except.bind]
    split
    · split
      · rfl
      · split
        · simp only [pure, Except.pure, catchInternal, logins, usersOf, Option.getD_some]
          apply updateFound_map
          intro x
          rfl
        · rfl
    · rfl

theorem user_devices_logins (file : File) (username : Value) :
    logins (user_devices file username).2 = logins file := by
  cases file with
  | unreadable => rfl
  | null => rfl
  | doc data =>
    simp only [user_devices, user_devices_try, readData, bind, Except.bind]
    split <;> rfl

theorem delete_product_logins (file : File) (identifier : Value) :
    logins (delete_product file identifier).2 = logins file := by
  cases file with
  | unreadable => rfl
  | null => rfl
  | doc data =>
    simp only [delete_product, delete_product_try]
    split
    · rfl
    · split <;> rfl

/-- No handler makes two logins equal, unless it is `add_user` with an array as
login. -/
theorem handle_logins_nodup (file : File) (request : Request) (hreq : loginNotArray request)
    (h : (logins file).Nodup) : (logins (handle file request).2).Nodup := by
  cases request with
  | add_user name surname login password =>
    rcases add_user_logins file name surname login password hreq with h1 | ⟨hnew, h1⟩
    · simp only [handle, h1, h]
    · simp only [handle, h1]
      rw [List.nodup_append]
      exact ⟨h, by simp, by
        intro x hx hx2
        rw [List.mem_singleton] at hx2
        subst hx2
        exact hnew hx⟩
  | upload identifier name description serialNumber manufacturer originalname =>
    simp only [handle, upload_logins, h]
  | edit_product identifier name description serialNumber manufacturer =>
    simp only [handle, edit_product_logins, h]
  | add_device_to_user deviceIdentifier username =>
    simp only [handle, assign_logins, h]
  | remove_device_from_user deviceIdentifier username =>
    simp only [handle, release_logins, h]
  | user_devices username =>
    simp only [handle, user_devices_logins, h]
  | delete_product identifier =>
    simp only [handle, delete_product_logins, h]

/-- Distinct logins stay distinct along a run without an array login. -/
theorem run_logins_nodup (requests : List Request) (hreqs : ∀ r ∈ requests, loginNotArray r)
    (file : File) (h : (logins file).Nodup) : (logins (run file requests)).Nodup := by
  induction requests generalizing file with
  | nil => exact h
  | cons request rest ih =>
    exact ih (fun r hr => hreqs r (List.mem_cons_of_mem _ hr)) _
      (handle_logins_nodup file request (hreqs request (List.mem_cons_self _ _)) h)

/-- C11 (the code at the failing input). The request `POST /add_user` with the
form body `name=a&surname=b&login[]=dup&password=p` is served twice from the
empty document. The login is the array `['dup']`, `user.login === login` is
false for the stored copy, and the second request is answered 200 "User added
successfully" instead of 400: two users share the login. -/
theorem add_user_array_login_twice :
    handle emptyFile addDupLogin
      = (⟨200, Body.message "User added successfully"⟩,
         File.doc ⟨some [], some [⟨.str "a", .str "b", .arr ["dup"], .str "p", some []⟩]⟩)
    ∧ handle (handle emptyFile addDupLogin).2 addDupLogin
      = (⟨200, Body.message "User added successfully"⟩,
         File.doc ⟨some [], some [⟨.str "a", .str "b", .arr ["dup"], .str "p", some []⟩,
           ⟨.str "a", .str "b", .arr ["dup"], .str "p", some []⟩]⟩)
    ∧ (handle (handle emptyFile addDupLogin).2 addDupLogin).1
      ≠ ⟨400, Body.error "User with the login already exists"⟩
    ∧ logins (run emptyFile [addDupLogin, addDupLogin]) = [.arr ["dup"], .arr ["dup"]]
    ∧ ¬ (logins (run emptyFile [addDupLogin, addDupLogin])).Nodup := by
  refine ⟨by decide, by decide, by decide, by decide, ?_⟩
  have h : logins (run emptyFile [addDupLogin, addDupLogin]) = [.arr ["dup"], .arr ["dup"]] := by
    decide
  rw [h]
  simp

/-- With a string as login the duplicate test works: the second creation with
the login alice01 is answered 400 and the file is unchanged. -/
theorem add_user_string_login_twice :
    handle (handle emptyFile addAlice).2 addAlice
      = (⟨400, Body.error "User with the login already exists"⟩, (handle emptyFile addAlice).2) := by
  decide

end Registry

namespace Registry

/-! ## Device creation: `savePhotoInfo` -/

/-- On a document that has a devices collection, `savePhotoInfo` writes the
previous devices followed by the new record with usage "no used" and user
"available", and leaves the users as they are. -/
theorem savePhotoInfo_doc (devices : List Device) (users : Option (List User))
    (photoInfo : PhotoInfo) :
    savePhotoInfo (File.doc ⟨some devices, users⟩) photoInfo
      = .ok (File.doc ⟨some (devices ++ [photoWithDefaults photoInfo]), users⟩) := rfl

/-- On a document without a devices collection nothing is pushed: the document
is written back as it is. -/
theorem savePhotoInfo_no_devices (users : Option (List User)) (photoInfo : PhotoInfo) :
    savePhotoInfo (File.doc ⟨none, users⟩) photoInfo = .ok (File.doc ⟨none, users⟩) := rfl

/-- C12 (the code at the failing input). With `photos.json` absent or
unparsable, `savePhotoInfo` falls back to `{}`, pushes nothing and writes `{}`:
the catalog afterwards is empty and lacks the new record, although `/upload`
answers 200 "The photo uploaded successfully"; a second upload is dropped in the
same way. -/
theorem savePhotoInfo_unreadable_drops_record :
    savePhotoInfo File.unreadable photoD1 = .ok (File.doc ⟨none, none⟩)
    ∧ upload File.unreadable (.str "D1") (.str "Camera") (.str "A camera") (.str "SN-1")
        (.str "Acme") (some "d1.jpg")
      = (⟨200, Body.message "The photo uploaded successfully"⟩, File.doc ⟨none, none⟩)
    ∧ catalog (upload File.unreadable (.str "D1") (.str "Camera") (.str "A camera")
        (.str "SN-1") (.str "Acme") (some "d1.jpg")).2 = []
    ∧ photoWithDefaults photoD1 ∉ catalog (upload File.unreadable (.str "D1") (.str "Camera")
        (.str "A camera") (.str "SN-1") (.str "Acme") (some "d1.jpg")).2
    ∧ savePhotoInfo (File.doc ⟨none, none⟩) photoD1 = .ok (File.doc ⟨none, none⟩) := by
  refine ⟨rfl, rfl, rfl, ?_, rfl⟩
  have h : catalog (upload File.unreadable (.str "D1") (.str "Camera") (.str "A camera")
      (.str "SN-1") (.str "Acme") (some "d1.jpg")).2 = [] := rfl
  rw [h]
  exact List.not_mem_nil _

end Registry
